import Mathlib

/-!
Shallow embedding of the completion-orchestration core of the braingain
repository: the Anthropic (Bedrock) provider adapter, the Vertex AI provider
adapter, the tail of the chat service's `PostMessage` handler, and the
evidence ordering performed by the `get_sources` tool before serialization.
Definitions are translated from the Go source; provider transports, message
transformers and other external collaborators appear as explicit
function-valued parameters.  Each adapter additionally returns a ghost run
log (provider round trips, per-turn usage deltas, tool executions) that never
influences control flow.
-/

/-- Go `error` values are modelled by their message string. -/
abbrev GoErr := String

/-- Result of a Go call returning `(value, error)`: `ok` models a non-nil
value with a nil error, `error` a nil value with a non-nil error, and `panic`
a Go runtime panic (index out of range, nil dereference). -/
inductive Outcome (α : Type) where
  | ok (val : α)
  | error (msg : GoErr)
  | panic (msg : String)
  deriving Repr, DecidableEq

/-- Character class of Go's `unicode.IsSpace` restricted to Latin-1 (the
space classes beyond Latin-1 are never exercised by the claims). -/
def goIsSpace (c : Char) : Bool :=
  c == ' ' || c == '\t' || c == '\n' || c.toNat == 11 || c.toNat == 12 ||
    c == '\r' || c.toNat == 0x85 || c.toNat == 0xA0

/-- Go `strings.TrimSpace`: remove leading and trailing white space. -/
def goTrimSpace (s : String) : String :=
  ⟨((s.data.dropWhile goIsSpace).reverse.dropWhile goIsSpace).reverse⟩

/-- Character-level prefix test (Go `strings.HasPrefix`). -/
def goHasPre : List Char → List Char → Bool
  | [], _ => true
  | _ :: _, [] => false
  | p :: ps, c :: cs => p == c && goHasPre ps cs

/-- Go `strings.CutPrefix` projected on its first component, as used by the
Vertex adapter: the string with `pre` removed when it starts with `pre`. -/
def goCutPre (s pre : String) : String :=
  if goHasPre pre.data s.data then ⟨s.data.drop pre.data.length⟩ else s

namespace Llm

/-- `llm.Message`: a role together with plain text content. -/
structure Message where
  role : String
  content : String
  deriving Repr, DecidableEq

/-- `llm.ModelUsage`: cumulative token accounting for one completion. -/
structure ModelUsage where
  userId : String := ""
  model : String := ""
  inputTokens : Nat := 0
  outputTokens : Nat := 0
  deriving Repr, DecidableEq

/-- Argument payload handed to a tool handler.  In Go this is an untyped
JSON object; its structure is never inspected by the code under
verification, so it is carried as an uninterpreted string. -/
abbrev ToolArgs := String

/-- `llm.ToolDefinition`: a named tool with its bound handler
(`llm.FunctionCall`). -/
structure ToolDefinition where
  name : String
  call : ToolArgs → Except GoErr String

/-- `llm.CompletionRequest`. -/
structure CompletionRequest where
  systemPrompt : String := ""
  messages : List Message := []
  model : String := ""
  maxTokens : Nat := 0
  topP : Float := 0.0
  temperature : Float := 0.0
  userId : String := ""
  tools : List ToolDefinition := []

/-- `llm.CompletionResponse` as produced by the adapters: one final
assistant message plus cumulative usage. -/
structure CompletionResponse where
  message : Message
  usage : ModelUsage
  deriving Repr, DecidableEq

/-- `llm.RoleAssistant`. -/
def RoleAssistant : String := "assistant"

end Llm

namespace Anthropic

/-- Claude content-block type tag `tool_use`. -/
def ContentTypeToolUse : String := "tool_use"

/-- Claude content-block type tag `tool_result`. -/
def ContentTypeToolResult : String := "tool_result"

/-- Claude content-block type tag `text`. -/
def ContentTypeText : String := "text"

/-- Claude chat role `assistant`. -/
def ChatMessageRoleAssistant : String := "assistant"

/-- Claude chat role `user`. -/
def ChatMessageRoleUser : String := "user"

/-- One Claude content block, with the fields the adapter reads or writes.
Unused fields default to the Go zero value. -/
structure Content where
  type : String
  text : String := ""
  id : String := ""
  name : String := ""
  input : Llm.ToolArgs := ""
  toolUseId : String := ""
  content : String := ""
  deriving Repr, DecidableEq

/-- One Claude wire message: a role and a list of content blocks. -/
structure ClaudeMessage where
  role : String
  content : List Content
  deriving Repr, DecidableEq

/-- Per-response token usage reported by the vendor. -/
structure ClaudeUsage where
  inputTokens : Nat := 0
  outputTokens : Nat := 0
  deriving Repr, DecidableEq

/-- A parsed Claude response body. -/
structure ClaudeResponse where
  model : String := ""
  stopReason : String := ""
  content : List Content := []
  usage : ClaudeUsage := {}
  deriving Repr, DecidableEq

/-- Wire form of one tool definition (output of `transformTools`); only
carried, never read, by the code under verification. -/
structure ClaudeTool where
  name : String := ""
  deriving Repr, DecidableEq

/-- The Claude request body assembled by `Completion`. -/
structure ClaudeRequest where
  anthropicVersion : String
  messages : List ClaudeMessage
  system : String
  maxTokens : Nat
  topP : Float
  temperature : Float
  tools : List ClaudeTool
  deriving Repr

/-- External collaborators of the Anthropic adapter: the Bedrock transport
`invokeRequest` (indexed by the number of invocations already made, and
receiving the model id and the request), and the `transformMessages` /
`transformTools` translators defined outside the given source files. -/
structure Client where
  invoke : Nat → String → ClaudeRequest → Except GoErr ClaudeResponse
  transformMessages : List Llm.Message → Except GoErr (List ClaudeMessage)
  transformTools : List Llm.ToolDefinition → List ClaudeTool

/-- Ghost instrumentation of one adapter run: how many provider invocations
were made, the usage reported by each successful provider response in order,
and the tool handlers invoked in execution order. -/
structure RunLog where
  providerCalls : Nat := 0
  deltas : List ClaudeUsage := []
  toolExecs : List String := []
  deriving Repr, DecidableEq

/-- Lookup in the `tools` map that `Completion` builds by iterating over
`req.Tools`; a later entry under the same name overwrites an earlier one,
as for a Go map. -/
def lookupTool (tools : List Llm.ToolDefinition) (name : String) :
    Option (Llm.ToolArgs → Except GoErr String) :=
  match tools with
  | [] => none
  | t :: rest =>
    match lookupTool rest name with
    | some c => some c
    | none => if t.name == name then some t.call else none

/-- The inner `for _, message := range response.Content` loop of the
Anthropic `Completion` (part_002 lines 129-150): execute each `tool_use`
block in order, appending one `tool_result` user message per invocation to
the request messages.  Returns the extended message list, or the first
failure: `unknown tool <name>` for a name missing from the registry, or the
handler's own error.  The final `List String` is ghost: the handlers
invoked, in execution order. -/
def runTools (tools : String → Option (Llm.ToolArgs → Except GoErr String)) :
    List Content → List ClaudeMessage → List String →
    Except GoErr (List ClaudeMessage) × List String
  | [], msgs, execs => (.ok msgs, execs)
  | m :: rest, msgs, execs =>
    if m.type == ContentTypeToolUse then
      match tools m.name with
      | none => (.error ("unknown tool " ++ m.name), execs)
      | some call =>
        match call m.input with
        | .error e => (.error e, execs ++ [m.name])
        | .ok result =>
          runTools tools rest
            (msgs ++ [ClaudeMessage.mk ChatMessageRoleUser
              [{ type := ContentTypeToolResult, toolUseId := m.id,
                 content := result }]])
            (execs ++ [m.name])
    else
      runTools tools rest msgs execs

/-- Lines 163-169 of part_002: the final `CompletionResponse` is built from
the trimmed text of the first content block; Go panics when the content list
is empty. -/
def claudeFinish (response : ClaudeResponse) (usage : Llm.ModelUsage)
    (log : RunLog) : Outcome Llm.CompletionResponse × RunLog :=
  match response.content with
  | [] => (.panic ("index out of range"), log)
  | c :: _ =>
    (.ok { message := { role := Llm.RoleAssistant, content := goTrimSpace c.text },
           usage := usage }, log)

/-- The tool loop of the Anthropic `Completion` (part_002 lines 122-161).
Go counts `loops` upward with guard
`response.StopReason == ContentTypeToolUse && loops < 6`; here
`remaining = 6 - loops` counts downward so that the recursion is structural.
Each iteration appends the assistant turn, executes its tool calls via
`runTools`, invokes the provider again, and accumulates the usage delta. -/
def claudeLoop (client : Client) (model : String)
    (tools : String → Option (Llm.ToolArgs → Except GoErr String))
    (remaining : Nat) (request : ClaudeRequest) (response : ClaudeResponse)
    (usage : Llm.ModelUsage) (log : RunLog) :
    Outcome Llm.CompletionResponse × RunLog :=
  if response.stopReason == ContentTypeToolUse then
    match remaining with
    | 0 => claudeFinish response usage log
    | r + 1 =>
      let request := { request with
        messages := request.messages ++
          [ClaudeMessage.mk ChatMessageRoleAssistant response.content] }
      match runTools tools response.content request.messages log.toolExecs with
      | (.error e, execs) => (.error e, { log with toolExecs := execs })
      | (.ok msgs, execs) =>
        let request := { request with messages := msgs }
        let log := { log with toolExecs := execs }
        match client.invoke log.providerCalls model request with
        | .error e => (.error e, { log with providerCalls := log.providerCalls + 1 })
        | .ok response' =>
          let log := { log with
            providerCalls := log.providerCalls + 1,
            deltas := log.deltas ++ [response'.usage] }
          let usage := { usage with
            outputTokens := usage.outputTokens + response'.usage.outputTokens,
            inputTokens := usage.inputTokens + response'.usage.inputTokens }
          claudeLoop client model tools r request response' usage log
  else
    claudeFinish response usage log

/-- `Completion` of the Anthropic adapter (part_002 lines 87-169), with the
Bedrock transport and the request translators abstracted into `client`.
Besides the Go result it returns the ghost `RunLog` of the run. -/
def Completion (client : Client) (req : Llm.CompletionRequest) :
    Outcome Llm.CompletionResponse × RunLog :=
  match client.transformMessages req.messages with
  | .error e => (.error e, {})
  | .ok messages =>
    let toolList := client.transformTools req.tools
    let tools := lookupTool req.tools
    let request : ClaudeRequest :=
      { anthropicVersion := "bedrock-2023-05-31", messages := messages,
        system := req.systemPrompt, maxTokens := req.maxTokens,
        topP := req.topP, temperature := req.temperature, tools := toolList }
    match client.invoke 0 req.model request with
    | .error e => (.error e, { providerCalls := 1 })
    | .ok response =>
      let usage : Llm.ModelUsage :=
        { userId := req.userId, model := response.model,
          inputTokens := response.usage.inputTokens,
          outputTokens := response.usage.outputTokens }
      claudeLoop client req.model tools 6 request response usage
        { providerCalls := 1, deltas := [response.usage] }

end Anthropic

namespace Vertex

/-- Vertex chat role `user`. -/
def RoleUser : String := "user"

/-- Vertex chat role `model`. -/
def RoleModel : String := "model"

/-- One `genai.Part`: the content union of the Vertex SDK, inspected by the
adapter through type assertions.  A function response carries the parsed
result map as an uninterpreted payload. -/
inductive GenaiPart where
  | text (s : String)
  | functionCall (name : String) (args : Llm.ToolArgs)
  | functionResponse (name : String) (response : String)
  deriving Repr, DecidableEq

/-- One `genai.Content`: a role and a list of parts. -/
structure GenaiContent where
  role : String
  parts : List GenaiPart
  deriving Repr, DecidableEq

/-- `genai.UsageMetadata` with the two counters the adapter reads. -/
structure UsageMetadata where
  promptTokenCount : Nat := 0
  candidatesTokenCount : Nat := 0
  deriving Repr, DecidableEq

/-- One `genai.Candidate`. -/
structure Candidate where
  content : GenaiContent
  deriving Repr, DecidableEq

/-- A `genai.GenerateContentResponse`: candidates plus optional usage
metadata (`nil` in Go when the vendor omits it). -/
structure GenResponse where
  candidates : List Candidate := []
  usageMetadata : Option UsageMetadata := none
  deriving Repr, DecidableEq

/-- External collaborators of the Vertex adapter: the chat transport
(`SendMessage`, indexed by the number of sends already made and receiving
the history whose last element is the message being sent), the
`transformToHistory` translator, the `callTool` dispatcher and the
`json.Unmarshal` of a tool result into a map — all defined outside the
given source files. -/
structure Client where
  send : Nat → List GenaiContent → Except GoErr GenResponse
  transformToHistory : List Llm.Message → Except GoErr (List GenaiContent)
  callTool : String → Llm.ToolArgs → Except GoErr String
  jsonUnmarshalMap : String → Except GoErr String
  modelPre : String := ""

/-- Ghost instrumentation of one Vertex run: provider invocations made, the
(optional) usage metadata of each successful response in order, and the
tools dispatched. -/
structure RunLog where
  providerCalls : Nat := 0
  deltas : List (Option UsageMetadata) := []
  toolExecs : List String := []
  deriving Repr, DecidableEq

/-- The token count the adapter adds for one response: the metadata values
when present, otherwise the Go zero value. -/
def effIn (m : Option UsageMetadata) : Nat := (m.map (·.promptTokenCount)).getD 0

/-- Output-token counterpart of `effIn`. -/
def effOut (m : Option UsageMetadata) : Nat := (m.map (·.candidatesTokenCount)).getD 0

/-- Lines 106-117 of part_001: the final type assertion
`gen.Candidates[0].Content.Parts[0].(genai.Text)`.  Go panics when the
candidate or part lists are empty (this tail is reached without a length
check after a tool round), returns the text as the final message when the
assertion holds, and returns a nil response with nil error otherwise. -/
def vertexFinish (gen : GenResponse) (usage : Llm.ModelUsage) (log : RunLog) :
    Outcome (Option Llm.CompletionResponse) × RunLog :=
  match gen.candidates with
  | [] => (.panic ("index out of range"), log)
  | cand :: _ =>
    match cand.content.parts with
    | [] => (.panic ("index out of range"), log)
    | GenaiPart.text txt :: _ =>
      (.ok (some { message := { role := Llm.RoleAssistant, content := txt },
                   usage := usage }), log)
    | _ => (.ok none, log)

/-- `Completion` of the Vertex adapter (part_001 lines 17-118), with the
transport and translators abstracted into `client`.  Mirrors the Go control
flow: reject an empty message list, send the history, return a nil response
with nil error when the first turn has no candidates or no parts, read the
usage metadata when present, process at most the first part — executing a
single tool round when it is a function call — and finish with the text
assertion. -/
def Completion (client : Client) (req : Llm.CompletionRequest) :
    Outcome (Option Llm.CompletionResponse) × RunLog :=
  if req.messages.length == 0 then
    (.error ("no messages"), {})
  else
    let modelName := goCutPre req.model client.modelPre
    match client.transformToHistory req.messages with
    | .error e => (.error e, {})
    | .ok history =>
      match history with
      | [] => (.panic ("index out of range"), {})
      | _ :: _ =>
        match client.send 0 history with
        | .error e => (.error e, { providerCalls := 1 })
        | .ok gen =>
          let log : RunLog := { providerCalls := 1, deltas := [gen.usageMetadata] }
          match gen.candidates with
          | [] => (.ok none, log)
          | cand :: _ =>
            match cand.content.parts with
            | [] => (.ok none, log)
            | part0 :: _ =>
              let usage : Llm.ModelUsage :=
                { userId := req.userId, model := modelName,
                  inputTokens := effIn gen.usageMetadata,
                  outputTokens := effOut gen.usageMetadata }
              match part0 with
              | GenaiPart.functionCall fname fargs =>
                let history := history ++
                  [GenaiContent.mk RoleModel [GenaiPart.functionCall fname fargs]]
                let log := { log with toolExecs := [fname] }
                match client.callTool fname fargs with
                | .error e => (.error e, log)
                | .ok resultStr =>
                  match client.jsonUnmarshalMap resultStr with
                  | .error e => (.error e, log)
                  | .ok results =>
                    let history := history ++
                      [GenaiContent.mk RoleUser [GenaiPart.functionResponse fname results]]
                    match client.send 1 history with
                    | .error e => (.error e, { log with providerCalls := 2 })
                    | .ok gen2 =>
                      let log := { log with
                        providerCalls := 2,
                        deltas := log.deltas ++ [gen2.usageMetadata] }
                      let usage := { usage with
                        inputTokens := usage.inputTokens + effIn gen2.usageMetadata,
                        outputTokens := usage.outputTokens + effOut gen2.usageMetadata }
                      vertexFinish gen2 usage log
              | _ => vertexFinish gen usage log

end Vertex

namespace Chat

/-- The completion result shape consumed by `PostMessage` (part_000): an
updated message list plus cumulative usage.  A `none` value stands for a nil
`*llm.CompletionResponse` returned with a nil error. -/
structure CompletionResponseChat where
  messages : List Llm.Message
  usage : Llm.ModelUsage
  deriving Repr, DecidableEq

/-- Outcome of the `PostMessage` tail together with the ghost fact whether
`Database.StoreThread` was invoked. -/
structure PostOutcome where
  result : Outcome (List Llm.Message)
  storeThreadCalled : Bool
  deriving Repr, DecidableEq

/-- Lines 792-837 of part_000, from the `model.Completion` call to the
reply: a completion error returns immediately; on success the thread's
messages are replaced by the response messages and `StoreThread` persists
the updated thread (its error propagating); the reply's completion text is
`thread.Messages[len(thread.Messages)-1].Content`, a Go panic on an empty
list.  A nil completion response with nil error panics at
`response.Messages` (nil dereference).  The result carries the stored
message list; name resolution and usage recording are outside the claims. -/
def postMessageTail (completionResult : Outcome (Option CompletionResponseChat))
    (storeThread : List Llm.Message → Except GoErr Unit) : PostOutcome :=
  match completionResult with
  | .error e => { result := .error e, storeThreadCalled := false }
  | .panic p => { result := .panic p, storeThreadCalled := false }
  | .ok none =>
    { result := .panic ("invalid memory address or nil pointer dereference"),
      storeThreadCalled := false }
  | .ok (some response) =>
    match storeThread response.messages with
    | .error e => { result := .error e, storeThreadCalled := true }
    | .ok _ =>
      match response.messages.getLast? with
      | none => { result := .panic ("index out of range"), storeThreadCalled := true }
      | some _ => { result := .ok response.messages, storeThreadCalled := true }

end Chat

namespace GoSort

/-- Bounds-checked read; every access made by the sort is in bounds, the
default is never produced.  The Go slice is modelled as a list indexed by
position. -/
def getE [Inhabited α] (l : List α) (i : Nat) : α := l.getD i default

/-- Bounds-checked element swap (`data.Swap`); every swap made by the sort
is in bounds, the fallback branches are never taken. -/
def swapE [Inhabited α] (l : List α) (i j : Nat) : List α :=
  if i < l.length then
    if j < l.length then (l.set i (getE l j)).set j (getE l i) else l
  else l

/-- Halving recursion behind `bitsLen`; the fuel is structural and always
sufficient at the call site. -/
def bitsLenAux : Nat → Nat → Nat
  | 0, _ => 0
  | fuel + 1, n => if n == 0 then 0 else bitsLenAux fuel (n / 2) + 1

/-- Go `bits.Len`: the number of bits required to represent `n`. -/
def bitsLen (n : Nat) : Nat := bitsLenAux (n + 1) n

/-- `nextPowerOfTwo` from Go's sort package. -/
def nextPowerOfTwoGo (length : Nat) : Nat := 1 <<< bitsLen length

/-- One step of the xorshift generator used by `breakPatterns`
(64-bit machine arithmetic as Nat mod 2^64). -/
def xorshiftNext (r : Nat) : Nat :=
  let r := (Nat.xor r (r <<< 13)) % 2 ^ 64
  let r := Nat.xor r (r >>> 7)
  (Nat.xor r (r <<< 17)) % 2 ^ 64

/-- Inner loop of `insertionSort_func`: bubble index `j` down while it is
smaller than its predecessor and above `a`. -/
def insertionInner [Inhabited α] (lt : α → α → Bool) (a : Nat) :
    Nat → List α → List α
  | 0, arr => arr
  | j + 1, arr =>
    if a < j + 1 && lt (getE arr (j + 1)) (getE arr j) then
      insertionInner lt a j (swapE arr (j + 1) j)
    else arr

/-- Outer loop of `insertionSort_func` over `i = a+1, ..., b-1`; the first
argument is the remaining iteration count `b - i`. -/
def insertionOuter [Inhabited α] (lt : α → α → Bool) (a b : Nat) :
    Nat → List α → Nat → List α
  | 0, arr, _ => arr
  | fuel + 1, arr, i =>
    if i < b then insertionOuter lt a b fuel (insertionInner lt a i arr) (i + 1)
    else arr

/-- `insertionSort_func data a b`. -/
def insertionSortGo [Inhabited α] (lt : α → α → Bool) (arr : List α)
    (a b : Nat) : List α :=
  insertionOuter lt a b (b - a) arr (a + 1)

/-- `siftDown_func data lo hi first` with explicit fuel (the heap depth is
far below it). -/
def siftDownGo [Inhabited α] (lt : α → α → Bool) (hi first : Nat) :
    Nat → List α → Nat → List α
  | 0, arr, _ => arr
  | fuel + 1, arr, root =>
    let child := 2 * root + 1
    if child ≥ hi then arr
    else
      let child :=
        if child + 1 < hi && lt (getE arr (first + child)) (getE arr (first + child + 1))
        then child + 1 else child
      if !lt (getE arr (first + root)) (getE arr (first + child)) then arr
      else siftDownGo lt hi first fuel (swapE arr (first + root) (first + child)) child

/-- Heap construction of `heapSort_func`: `siftDown` for
`i = (hi-1)/2, ..., 0`; the first argument is the count of indices left. -/
def heapBuild [Inhabited α] (lt : α → α → Bool) (hi first : Nat) :
    Nat → List α → List α
  | 0, arr => arr
  | i + 1, arr => heapBuild lt hi first i (siftDownGo lt hi first hi arr i)

/-- Pop phase of `heapSort_func`: for `i = hi-1, ..., 0` swap the maximum to
the end and re-sift; the first argument is the count of indices left. -/
def heapPop [Inhabited α] (lt : α → α → Bool) (first : Nat) :
    Nat → List α → List α
  | 0, arr => arr
  | i + 1, arr =>
    heapPop lt first i (siftDownGo lt i first (i + 1) (swapE arr first (first + i)) 0)

/-- `heapSort_func data a b`. -/
def heapSortGo [Inhabited α] (lt : α → α → Bool) (arr : List α) (a b : Nat) :
    List α :=
  let first := a
  let hi := b - a
  heapPop lt first hi (heapBuild lt hi first ((hi - 1) / 2 + 1) arr)

/-- Loop of `reverseRange_func` on the inclusive index pair `(i, j)`. -/
def revLoopGo [Inhabited α] : Nat → List α → Nat → Nat → List α
  | 0, arr, _, _ => arr
  | fuel + 1, arr, i, j =>
    if i < j then revLoopGo fuel (swapE arr i j) (i + 1) (j - 1) else arr

/-- `reverseRange_func data a b`. -/
def reverseRangeGo [Inhabited α] (arr : List α) (a b : Nat) : List α :=
  revLoopGo b arr a (b - 1)

/-- `order2_func`: order two indices by their elements, counting a swap. -/
def order2Go [Inhabited α] (lt : α → α → Bool) (arr : List α)
    (a b swaps : Nat) : Nat × Nat × Nat :=
  if lt (getE arr b) (getE arr a) then (b, a, swaps + 1) else (a, b, swaps)

/-- `median_func`: index of the median of three elements. -/
def medianGo [Inhabited α] (lt : α → α → Bool) (arr : List α)
    (a b c swaps : Nat) : Nat × Nat :=
  let (a, b, swaps) := order2Go lt arr a b swaps
  let (b, _, swaps) := order2Go lt arr b c swaps
  let (_, b, swaps) := order2Go lt arr a b swaps
  (b, swaps)

/-- `medianAdjacent_func`: median of `a-1, a, a+1`. -/
def medianAdjacentGo [Inhabited α] (lt : α → α → Bool) (arr : List α)
    (a swaps : Nat) : Nat × Nat :=
  medianGo lt arr (a - 1) a (a + 1) swaps

/-- The sortedness hint returned by `choosePivot_func`. -/
inductive SortedHint where
  | increasing
  | decreasing
  | unknown
  deriving Repr, DecidableEq

/-- `choosePivot_func data a b` (`shortestNinther = 50`, `maxSwaps = 12`). -/
def choosePivotGo [Inhabited α] (lt : α → α → Bool) (arr : List α)
    (a b : Nat) : Nat × SortedHint :=
  let l := b - a
  let i := a + l / 4 * 1
  let j := a + l / 4 * 2
  let k := a + l / 4 * 3
  let (j, swaps) :=
    if l ≥ 8 then
      if l ≥ 50 then
        let (i, s) := medianAdjacentGo lt arr i 0
        let (j, s) := medianAdjacentGo lt arr j s
        let (k, s) := medianAdjacentGo lt arr k s
        medianGo lt arr i j k s
      else
        medianGo lt arr i j k 0
    else (j, 0)
  if swaps == 0 then (j, .increasing)
  else if swaps == 12 then (j, .decreasing)
  else (j, .unknown)

/-- First inner loop of `partialInsertionSort_func`: advance `i` over the
already ordered run. -/
def advanceIGo [Inhabited α] (lt : α → α → Bool) (arr : List α) (b : Nat) :
    Nat → Nat → Nat
  | 0, i => i
  | fuel + 1, i =>
    if i < b && !lt (getE arr i) (getE arr (i - 1)) then
      advanceIGo lt arr b fuel (i + 1)
    else i

/-- Left shift loop of `partialInsertionSort_func`. -/
def shiftLeftGo [Inhabited α] (lt : α → α → Bool) : Nat → List α → Nat → List α
  | 0, arr, _ => arr
  | fuel + 1, arr, j =>
    if j ≥ 1 then
      if !lt (getE arr j) (getE arr (j - 1)) then arr
      else shiftLeftGo lt fuel (swapE arr j (j - 1)) (j - 1)
    else arr

/-- Right shift loop of `partialInsertionSort_func`. -/
def shiftRightGo [Inhabited α] (lt : α → α → Bool) (b : Nat) :
    Nat → List α → Nat → List α
  | 0, arr, _ => arr
  | fuel + 1, arr, j =>
    if j < b then
      if !lt (getE arr j) (getE arr (j - 1)) then arr
      else shiftRightGo lt b fuel (swapE arr j (j - 1)) (j + 1)
    else arr

/-- Step loop of `partialInsertionSort_func` (`maxSteps = 5`,
`shortestShifting = 50`); returns the data and whether it ended sorted. -/
def pisLoopGo [Inhabited α] (lt : α → α → Bool) (a b : Nat) :
    Nat → List α → Nat → List α × Bool
  | 0, arr, _ => (arr, false)
  | steps + 1, arr, i =>
    let i := advanceIGo lt arr b b i
    if i == b then (arr, true)
    else if b - a < 50 then (arr, false)
    else
      let arr := swapE arr i (i - 1)
      let arr := if i - a ≥ 2 then shiftLeftGo lt i arr (i - 1) else arr
      let arr := if b - i ≥ 2 then shiftRightGo lt b b arr (i + 1) else arr
      pisLoopGo lt a b steps arr i

/-- `partialInsertionSort_func data a b`. -/
def partInsertionSortGo [Inhabited α] (lt : α → α → Bool) (arr : List α)
    (a b : Nat) : List α × Bool :=
  pisLoopGo lt a b 5 arr (a + 1)

/-- `breakPatterns_func data a b`: scatter three elements using the xorshift
generator seeded with the interval length. -/
def breakPatternsGo [Inhabited α] (arr : List α) (a b : Nat) : List α :=
  let length := b - a
  if length ≥ 8 then
    let modulus := nextPowerOfTwoGo length
    let idx := a + length / 4 * 2 - 1
    let step := fun (p : List α × Nat) (i : Nat) =>
      let r := xorshiftNext p.2
      let other := r % modulus
      let other := if other ≥ length then other - length else other
      (swapE p.1 (idx - 1 + i) (a + other), r)
    (step (step (step (arr, length) 0) 1) 2).1
  else arr

/-- Upward scan of `partition_func`: advance `i` while the element is less
than the pivot at `a`. -/
def scanUpGo [Inhabited α] (lt : α → α → Bool) (arr : List α) (a j : Nat) :
    Nat → Nat → Nat
  | 0, i => i
  | fuel + 1, i =>
    if i ≤ j && lt (getE arr i) (getE arr a) then scanUpGo lt arr a j fuel (i + 1)
    else i

/-- Downward scan of `partition_func`: decrease `j` while the element is not
less than the pivot at `a`. -/
def scanDownGo [Inhabited α] (lt : α → α → Bool) (arr : List α) (a i : Nat) :
    Nat → Nat → Nat
  | 0, j => j
  | fuel + 1, j =>
    if i ≤ j && !lt (getE arr j) (getE arr a) then scanDownGo lt arr a i fuel (j - 1)
    else j

/-- Main exchange loop of `partition_func`. -/
def partLoopGo [Inhabited α] (lt : α → α → Bool) (a b : Nat) :
    Nat → List α → Nat → Nat → List α × Nat
  | 0, arr, _, j => (arr, j)
  | fuel + 1, arr, i, j =>
    let i := scanUpGo lt arr a j b i
    let j := scanDownGo lt arr a i b j
    if i > j then (arr, j)
    else partLoopGo lt a b fuel (swapE arr i j) (i + 1) (j - 1)

/-- `partition_func data a b pivot`: Hoare-style partition around the pivot
moved to `a`; returns the data, the new pivot position, and whether the
interval was already partitioned. -/
def partitionGo [Inhabited α] (lt : α → α → Bool) (arr : List α)
    (a b pivot : Nat) : List α × Nat × Bool :=
  let arr := swapE arr a pivot
  let i := a + 1
  let j := b - 1
  let i := scanUpGo lt arr a j b i
  let j := scanDownGo lt arr a i b j
  if i > j then (swapE arr j a, j, true)
  else
    let arr := swapE arr i j
    let (arr, j) := partLoopGo lt a b b arr (i + 1) (j - 1)
    (swapE arr j a, j, false)

/-- Upward scan of `partitionEqual_func`. -/
def scanEqUpGo [Inhabited α] (lt : α → α → Bool) (arr : List α) (a j : Nat) :
    Nat → Nat → Nat
  | 0, i => i
  | fuel + 1, i =>
    if i ≤ j && !lt (getE arr a) (getE arr i) then scanEqUpGo lt arr a j fuel (i + 1)
    else i

/-- Downward scan of `partitionEqual_func`. -/
def scanEqDownGo [Inhabited α] (lt : α → α → Bool) (arr : List α) (a i : Nat) :
    Nat → Nat → Nat
  | 0, j => j
  | fuel + 1, j =>
    if i ≤ j && lt (getE arr a) (getE arr j) then scanEqDownGo lt arr a i fuel (j - 1)
    else j

/-- Exchange loop of `partitionEqual_func`; returns the data and the first
index of an element greater than the pivot. -/
def partEqLoopGo [Inhabited α] (lt : α → α → Bool) (a b : Nat) :
    Nat → List α → Nat → Nat → List α × Nat
  | 0, arr, i, _ => (arr, i)
  | fuel + 1, arr, i, j =>
    let i := scanEqUpGo lt arr a j b i
    let j := scanEqDownGo lt arr a i b j
    if i > j then (arr, i)
    else partEqLoopGo lt a b fuel (swapE arr i j) (i + 1) (j - 1)

/-- `partitionEqual_func data a b pivot`. -/
def partitionEqualGo [Inhabited α] (lt : α → α → Bool) (arr : List α)
    (a b pivot : Nat) : List α × Nat :=
  let arr := swapE arr a pivot
  partEqLoopGo lt a b b arr (a + 1) (b - 1)

/-- Straight-line head of one `pdqsort_func` iteration: the optional
`breakPatterns` call (with its `limit` decrement), pivot selection, the
`reverseRange` on a decreasing hint, and the optional partial insertion
sort.  Returns the updated data and limit, the pivot, and whether the
interval was detected as already sorted. -/
def pdqsortPrep [Inhabited α] (lt : α → α → Bool) (arr : List α)
    (a b limit : Nat) (wasBalanced wasPartitioned : Bool) :
    List α × Nat × Nat × Bool :=
  let (arr, limit) :=
    if !wasBalanced then (breakPatternsGo arr a b, limit - 1) else (arr, limit)
  let (pivot, hint) := choosePivotGo lt arr a b
  let (arr, pivot, hint) :=
    if hint == SortedHint.decreasing then
      (reverseRangeGo arr a b, (b - 1) - (pivot - a), SortedHint.increasing)
    else (arr, pivot, hint)
  let (arr, sorted) :=
    if wasBalanced && wasPartitioned && hint == SortedHint.increasing then
      partInsertionSortGo lt arr a b
    else (arr, false)
  (arr, limit, pivot, sorted)

/-- `pdqsort_func data a b limit` (`maxInsertion = 12`), the algorithm
behind Go's `sort.Slice` since Go 1.19.  The structural fuel only serves
termination; every interval shrinks by at least one per iteration, so the
fuel passed by `goSortSlice` is never exhausted. -/
def pdqsortGo [Inhabited α] (lt : α → α → Bool) :
    Nat → List α → Nat → Nat → Nat → Bool → Bool → List α
  | 0, arr, _, _, _, _, _ => arr
  | fuel + 1, arr, a, b, limit, wasBalanced, wasPartitioned =>
    let length := b - a
    if length ≤ 12 then insertionSortGo lt arr a b
    else if limit == 0 then heapSortGo lt arr a b
    else
      let (arr, limit, pivot, sorted) :=
        pdqsortPrep lt arr a b limit wasBalanced wasPartitioned
      if sorted then arr
      else if a > 0 && !lt (getE arr (a - 1)) (getE arr pivot) then
        let (arr, mid) := partitionEqualGo lt arr a b pivot
        pdqsortGo lt fuel arr mid b limit wasBalanced wasPartitioned
      else
        let (arr, mid, alreadyPartitioned) := partitionGo lt arr a b pivot
        let wasPartitioned := alreadyPartitioned
        let leftLen := mid - a
        let rightLen := b - mid
        let balanceThreshold := length / 8
        let wasBalanced := min leftLen rightLen ≥ balanceThreshold
        if leftLen < rightLen then
          let arr := pdqsortGo lt fuel arr a mid limit true true
          pdqsortGo lt fuel arr (mid + 1) b limit wasBalanced wasPartitioned
        else
          let arr := pdqsortGo lt fuel arr (mid + 1) b limit true true
          pdqsortGo lt fuel arr a mid limit wasBalanced wasPartitioned

/-- Go `sort.Slice x less`: `pdqsort(data, 0, length, bits.Len(length))`. -/
def goSortSlice [Inhabited α] (lt : α → α → Bool) (arr : List α) : List α :=
  pdqsortGo lt (arr.length + 1) arr 0 arr.length (bitsLen arr.length) true true

end GoSort

namespace Chat

/-- The `search.Result` fields read by the ordering code (part_000 lines
769-775); `id` and `content` identify an item across the sort, the float
`score` field is never read there and is omitted. -/
structure SearchResult where
  id : String
  documentId : String
  position : Nat
  content : String := ""
  deriving Repr, DecidableEq, Inhabited

/-- Go string `<`: byte-wise lexicographic order, which equals code-point
lexicographic order because UTF-8 is order preserving; modelled on the
character lists. -/
def goStrLt : List Char → List Char → Bool
  | [], [] => false
  | [], _ :: _ => true
  | _ :: _, [] => false
  | c :: cs, d :: ds => if c == d then goStrLt cs ds else decide (c < d)

/-- The comparator passed to `sort.Slice` in the `get_sources` tool: by
`DocumentId`, then by `Position`. -/
def sourcesLess (x y : SearchResult) : Bool :=
  if x.documentId != y.documentId then
    goStrLt x.documentId.data y.documentId.data
  else decide (x.position < y.position)

/-- Lines 769-775 of part_000: order the retrieval results with Go's
`sort.Slice` under `sourcesLess` before serialization. -/
def sortSources (sources : List SearchResult) : List SearchResult :=
  GoSort.goSortSlice sourcesLess sources

end Chat

/-- Tool-call turn used by the C1 stub provider: every invocation requests
the registered `get_sources` tool. -/
def c1ToolTurn : Anthropic.ClaudeResponse :=
  { model := "claude-3", stopReason := "tool_use",
    content := [{ type := "tool_use", name := "get_sources", input := "{}", id := "t1" }],
    usage := { inputTokens := 3, outputTokens := 5 } }

/-- C1 stub Anthropic client: the provider answers `c1ToolTurn` on every
invocation. -/
def c1Client : Anthropic.Client :=
  { invoke := fun _ _ _ => .ok c1ToolTurn,
    transformMessages := fun _ => .ok [],
    transformTools := fun _ => [] }

/-- C1 request: registers a `get_sources` tool whose handler succeeds. -/
def c1Req : Llm.CompletionRequest :=
  { model := "claude-3", userId := "user-1",
    tools := [{ name := "get_sources", call := fun _ => .ok "[]" }] }

/-- C1 stub Vertex client: every turn is a function call, tool dispatch and
result parsing succeed. -/
def c1VClient : Vertex.Client :=
  { send := fun _ _ =>
      .ok { candidates :=
              [⟨⟨"model", [Vertex.GenaiPart.functionCall "get_sources" "{}"]⟩⟩],
            usageMetadata := some ⟨10, 2⟩ },
    transformToHistory := fun _ => .ok [⟨"user", [Vertex.GenaiPart.text "hi"]⟩],
    callTool := fun _ _ => .ok "{}",
    jsonUnmarshalMap := fun s => .ok s }

/-- C1 Vertex request. -/
def c1VReq : Llm.CompletionRequest :=
  { messages := [⟨"user", "hi"⟩], model := "gemini", userId := "user-1" }

/-- C2 stub Anthropic client: one tool turn, then a text turn, with distinct
usage deltas. -/
def c2Client : Anthropic.Client :=
  { invoke := fun n _ _ =>
      if n == 0 then
        .ok { model := "claude-3", stopReason := "tool_use",
              content := [{ type := "tool_use", name := "get_sources",
                            input := "{}", id := "t1" }],
              usage := { inputTokens := 4, outputTokens := 6 } }
      else
        .ok { model := "claude-3", stopReason := "end_turn",
              content := [{ type := "text", text := "done" }],
              usage := { inputTokens := 5, outputTokens := 7 } },
    transformMessages := fun _ => .ok [],
    transformTools := fun _ => [] }

/-- C2 Anthropic request. -/
def c2Req : Llm.CompletionRequest :=
  { model := "claude-3", userId := "user-2",
    tools := [{ name := "get_sources", call := fun _ => .ok "[]" }] }

/-- The response the C2 Anthropic run produces. -/
def c2Cr : Llm.CompletionResponse :=
  { message := { role := "assistant", content := "done" },
    usage := { userId := "user-2", model := "claude-3",
               inputTokens := 9, outputTokens := 13 } }

/-- The run log of the C2 Anthropic run. -/
def c2Log : Anthropic.RunLog :=
  { providerCalls := 2,
    deltas := [{ inputTokens := 4, outputTokens := 6 },
               { inputTokens := 5, outputTokens := 7 }],
    toolExecs := ["get_sources"] }

/-- C2 stub Vertex client: a function-call turn with usage metadata, then a
text turn WITHOUT usage metadata (zero delta). -/
def c2VClient : Vertex.Client :=
  { send := fun n _ =>
      if n == 0 then
        .ok { candidates :=
                [⟨⟨"model", [Vertex.GenaiPart.functionCall "get_sources" "{}"]⟩⟩],
              usageMetadata := some ⟨11, 3⟩ }
      else
        .ok { candidates := [⟨⟨"model", [Vertex.GenaiPart.text "answer"]⟩⟩],
              usageMetadata := none },
    transformToHistory := fun _ => .ok [⟨"user", [Vertex.GenaiPart.text "hi"]⟩],
    callTool := fun _ _ => .ok "{}",
    jsonUnmarshalMap := fun s => .ok s }

/-- C2 Vertex request. -/
def c2VReq : Llm.CompletionRequest :=
  { messages := [⟨"user", "hi"⟩], model := "gemini-pro", userId := "user-2" }

/-- The response the C2 Vertex run produces. -/
def c2VCr : Llm.CompletionResponse :=
  { message := { role := "assistant", content := "answer" },
    usage := { userId := "user-2", model := "gemini-pro",
               inputTokens := 11, outputTokens := 3 } }

/-- The run log of the C2 Vertex run. -/
def c2VLog : Vertex.RunLog :=
  { providerCalls := 2,
    deltas := [some { promptTokenCount := 11, candidatesTokenCount := 3 }, none],
    toolExecs := ["get_sources"] }

/-- C4 stub client: the first turn asks for the registered `get_sources`
tool and then for an unregistered tool named `mystery`. -/
def c4Client : Anthropic.Client :=
  { invoke := fun _ _ _ =>
      .ok { model := "claude-3", stopReason := "tool_use",
            content :=
              [{ type := "tool_use", name := "get_sources", input := "{}", id := "t1" },
               { type := "tool_use", name := "mystery", input := "{}", id := "t2" }],
            usage := { inputTokens := 4, outputTokens := 6 } },
    transformMessages := fun _ => .ok [],
    transformTools := fun _ => [] }

/-- C4 request: only `get_sources` is registered. -/
def c4Req : Llm.CompletionRequest :=
  { model := "claude-3", userId := "user-4",
    tools := [{ name := "get_sources", call := fun _ => .ok "[]" }] }

/-- C5 stub client: the turn asks for `get_sources`, whose handler fails. -/
def c5Client : Anthropic.Client :=
  { invoke := fun _ _ _ =>
      .ok { model := "claude-3", stopReason := "tool_use",
            content := [{ type := "tool_use", name := "get_sources",
                          input := "{}", id := "t1" }],
            usage := { inputTokens := 4, outputTokens := 6 } },
    transformMessages := fun _ => .ok [],
    transformTools := fun _ => [] }

/-- C5 request: `get_sources` is registered but its handler fails. -/
def c5Req : Llm.CompletionRequest :=
  { model := "claude-3", userId := "user-5",
    tools := [{ name := "get_sources",
                call := fun _ => .error ("search backend down") }] }

/-- C5 stub Vertex client whose tool dispatch fails. -/
def c5VClient : Vertex.Client :=
  { send := fun _ _ =>
      .ok { candidates :=
              [⟨⟨"model", [Vertex.GenaiPart.functionCall "get_sources" "{}"]⟩⟩],
            usageMetadata := some ⟨11, 3⟩ },
    transformToHistory := fun _ => .ok [⟨"user", [Vertex.GenaiPart.text "hi"]⟩],
    callTool := fun _ _ => .error ("search backend down"),
    jsonUnmarshalMap := fun s => .ok s }

/-- C5 Vertex request. -/
def c5VReq : Llm.CompletionRequest :=
  { messages := [⟨"user", "hi"⟩], model := "gemini-pro", userId := "user-5" }

/-- Bool discriminator for the error constructor of `Outcome`. -/
def Outcome.isErr : Outcome α → Bool
  | .error _ => true
  | _ => false

/-- C6 stub client: the provider returns a response with zero candidates. -/
def c6Client : Vertex.Client :=
  { send := fun _ _ => .ok { candidates := [], usageMetadata := some ⟨9, 0⟩ },
    transformToHistory := fun _ => .ok [⟨"user", [Vertex.GenaiPart.text "hi"]⟩],
    callTool := fun _ _ => .ok "{}",
    jsonUnmarshalMap := fun s => .ok s }

/-- C6 stub client: one candidate with zero content parts. -/
def c6PartsClient : Vertex.Client :=
  { send := fun _ _ =>
      .ok { candidates := [⟨⟨"model", []⟩⟩], usageMetadata := none },
    transformToHistory := fun _ => .ok [⟨"user", [Vertex.GenaiPart.text "hi"]⟩],
    callTool := fun _ _ => .ok "{}",
    jsonUnmarshalMap := fun s => .ok s }

/-- C6 request. -/
def c6Req : Llm.CompletionRequest :=
  { messages := [⟨"user", "hi"⟩], model := "gemini-pro", userId := "user-6" }

/-- C7 stub Vertex client: the first turn carries TWO function calls. -/
def c7VClient : Vertex.Client :=
  { send := fun n _ =>
      if n == 0 then
        .ok { candidates :=
                [⟨⟨"model", [Vertex.GenaiPart.functionCall "get_sources" "{}",
                             Vertex.GenaiPart.functionCall "second" "{}"]⟩⟩],
              usageMetadata := some ⟨10, 1⟩ }
      else
        .ok { candidates := [⟨⟨"model", [Vertex.GenaiPart.text "answer"]⟩⟩],
              usageMetadata := none },
    transformToHistory := fun _ => .ok [⟨"user", [Vertex.GenaiPart.text "hi"]⟩],
    callTool := fun n _ => .ok ("result-" ++ n),
    jsonUnmarshalMap := fun s => .ok s }

/-- C7 Vertex request. -/
def c7VReq : Llm.CompletionRequest :=
  { messages := [⟨"user", "hi"⟩], model := "gemini-pro", userId := "user-7" }

/-- C7 fixture: two registered tools. -/
def c7Tools : List Llm.ToolDefinition :=
  [{ name := "get_sources", call := fun _ => .ok "[]" },
   { name := "lookup", call := fun _ => .ok "{}" }]

/-- C7 fixture: a turn invoking both tools, in order. -/
def c7Turn : Anthropic.ClaudeResponse :=
  { model := "claude-3", stopReason := "tool_use",
    content :=
      [{ type := "tool_use", name := "get_sources", input := "{}", id := "t1" },
       { type := "tool_use", name := "lookup", input := "{}", id := "t2" }],
    usage := { inputTokens := 4, outputTokens := 6 } }

/-- C7 fixture: the follow-up text turn. -/
def c7Text : Anthropic.ClaudeResponse :=
  { model := "claude-3", stopReason := "end_turn",
    content := [{ type := "text", text := "done" }],
    usage := { inputTokens := 5, outputTokens := 7 } }

/-- C7 fixture: an Anthropic client answering the text turn. -/
def c7AClient : Anthropic.Client :=
  { invoke := fun _ _ _ => .ok c7Text,
    transformMessages := fun _ => .ok [],
    transformTools := fun _ => [] }

/-- C7 fixture: the request state at loop entry. -/
def c7Request : Anthropic.ClaudeRequest :=
  { anthropicVersion := "bedrock-2023-05-31", messages := [], system := "",
    maxTokens := 0, topP := 0.0, temperature := 0.0, tools := [] }

/-- C7 fixture: the cumulative usage at loop entry. -/
def c7Usage : Llm.ModelUsage :=
  { userId := "user-7", model := "claude-3", inputTokens := 4, outputTokens := 6 }

/-- C7 fixture: the run log at loop entry. -/
def c7Log : Anthropic.RunLog :=
  { providerCalls := 1, deltas := [{ inputTokens := 4, outputTokens := 6 }],
    toolExecs := [] }

/-- C9 stub client: a single text turn whose text carries surrounding
white space. -/
def c9Client : Anthropic.Client :=
  { invoke := fun _ _ _ =>
      .ok { model := "claude-3", stopReason := "end_turn",
            content := [{ type := "text", text := " hello " }],
            usage := { inputTokens := 7, outputTokens := 2 } },
    transformMessages := fun _ => .ok [],
    transformTools := fun _ => [] }

/-- C9 Anthropic request. -/
def c9Req : Llm.CompletionRequest :=
  { model := "claude-3", userId := "user-9" }

/-- C9 stub Vertex client: a single text turn. -/
def c9VClient : Vertex.Client :=
  { send := fun _ _ =>
      .ok { candidates := [⟨⟨"model", [Vertex.GenaiPart.text " hello "]⟩⟩],
            usageMetadata := some ⟨7, 2⟩ },
    transformToHistory := fun _ => .ok [⟨"user", [Vertex.GenaiPart.text "hi"]⟩],
    callTool := fun _ _ => .ok "{}",
    jsonUnmarshalMap := fun s => .ok s }

/-- C9 Vertex request. -/
def c9VReq : Llm.CompletionRequest :=
  { messages := [⟨"user", "hi"⟩], model := "gemini-pro", userId := "user-9" }

/-- The spec's three-item evidence example: docB/1, docA/2, docA/1. -/
def c3Example : List Chat.SearchResult :=
  [{ id := "c1", documentId := "docB", position := 1 },
    { id := "c2", documentId := "docA", position := 2 },
    { id := "c3", documentId := "docA", position := 1 }]

/-- A 13-item result set whose first two items are tied on both sort keys
(documentId docB, position 1) while the remaining eleven are mutually tied
on docA/1.  13 items exceed pdqsort's insertion-sort cutoff of 12. -/
def c3TieInput : List Chat.SearchResult :=
  [{ id := "x", documentId := "docB", position := 1 },
    { id := "y", documentId := "docB", position := 1 },
    { id := "a0", documentId := "docA", position := 1 },
    { id := "a1", documentId := "docA", position := 1 },
    { id := "a2", documentId := "docA", position := 1 },
    { id := "a3", documentId := "docA", position := 1 },
    { id := "a4", documentId := "docA", position := 1 },
    { id := "a5", documentId := "docA", position := 1 },
    { id := "a6", documentId := "docA", position := 1 },
    { id := "a7", documentId := "docA", position := 1 },
    { id := "a8", documentId := "docA", position := 1 },
    { id := "a9", documentId := "docA", position := 1 },
    { id := "a10", documentId := "docA", position := 1 }]

namespace Anthropic

/-- Names of the `tool_use` blocks of a turn, in provider order. -/
def toolUseNames : List Content → List String
  | [] => []
  | m :: rest =>
    if m.type == ContentTypeToolUse then m.name :: toolUseNames rest
    else toolUseNames rest

/-- The `tool_result` user messages a fully successful turn appends, one per
invocation, in provider order. -/
def toolResultMsgs (tools : String → Option (Llm.ToolArgs → Except GoErr String)) :
    List Content → List ClaudeMessage
  | [] => []
  | m :: rest =>
    if m.type == ContentTypeToolUse then
      (match tools m.name with
       | some call =>
         match call m.input with
         | .ok result =>
           [ClaudeMessage.mk ChatMessageRoleUser
             [{ type := ContentTypeToolResult, toolUseId := m.id, content := result }]]
         | .error _ => []
       | none => []) ++ toolResultMsgs tools rest
    else toolResultMsgs tools rest

/-- Decides whether every `tool_use` block of a turn names a registered
tool whose handler succeeds on the block's input. -/
def turnOk (tools : String → Option (Llm.ToolArgs → Except GoErr String)) :
    List Content → Bool
  | [] => true
  | m :: rest =>
    if m.type == ContentTypeToolUse then
      match tools m.name with
      | none => false
      | some call =>
        match call m.input with
        | .error _ => false
        | .ok _ => turnOk tools rest
    else turnOk tools rest

/-- Sum of the input-token deltas of a list of per-response usages. -/
def sumIn (ds : List ClaudeUsage) : Nat := (ds.map (·.inputTokens)).sum

/-- Sum of the output-token deltas of a list of per-response usages. -/
def sumOut (ds : List ClaudeUsage) : Nat := (ds.map (·.outputTokens)).sum

end Anthropic

namespace Vertex

/-- Sum of the effective input-token deltas of a run (a missing metadata
contributes zero). -/
def sumEffIn (ds : List (Option UsageMetadata)) : Nat := (ds.map effIn).sum

/-- Sum of the effective output-token deltas of a run. -/
def sumEffOut (ds : List (Option UsageMetadata)) : Nat := (ds.map effOut).sum

end Vertex

namespace Anthropic

theorem sumIn_append (a b : List ClaudeUsage) : sumIn (a ++ b) = sumIn a + sumIn b := by
  simp [sumIn]

theorem sumOut_append (a b : List ClaudeUsage) : sumOut (a ++ b) = sumOut a + sumOut b := by
  simp [sumOut]

/-- On a fully successful turn, `runTools` extends the message list with one
tool-result message per invocation and records exactly the `tool_use` names,
in order. -/
theorem runTools_ok (tools : String → Option (Llm.ToolArgs → Except GoErr String)) :
    ∀ (content : List Content) (msgs : List ClaudeMessage) (execs : List String),
      turnOk tools content = true →
      runTools tools content msgs execs =
        (.ok (msgs ++ toolResultMsgs tools content), execs ++ toolUseNames content) := by
  intro content
  induction content with
  | nil => intro msgs execs _; simp [runTools, toolResultMsgs, toolUseNames]
  | cons m rest ih =>
    intro msgs execs h
    by_cases ht : (m.type == ContentTypeToolUse) = true
    · cases hcall : tools m.name with
      | none => simp [turnOk, ht, hcall] at h
      | some call =>
        cases hres : call m.input with
        | error e => simp [turnOk, ht, hcall, hres] at h
        | ok result =>
          have h2 : turnOk tools rest = true := by
            simpa [turnOk, ht, hcall, hres] using h
          simp [runTools, toolResultMsgs, toolUseNames, ht, hcall, hres, ih _ _ h2]
    · have h2 : turnOk tools rest = true := by simpa [turnOk, ht] using h
      simp [runTools, toolResultMsgs, toolUseNames, ht, ih _ _ h2]

/-- When the turn reaches a `tool_use` block whose name is not registered,
after a run of successful invocations, `runTools` stops with the
`unknown tool` error, having executed exactly the earlier invocations. -/
theorem runTools_unknown (tools : String → Option (Llm.ToolArgs → Except GoErr String)) :
    ∀ (pre : List Content) (bad : Content) (rest : List Content)
      (msgs : List ClaudeMessage) (execs : List String),
      turnOk tools pre = true →
      bad.type = ContentTypeToolUse →
      tools bad.name = none →
      runTools tools (pre ++ bad :: rest) msgs execs =
        (.error ("unknown tool " ++ bad.name), execs ++ toolUseNames pre) := by
  intro pre
  induction pre with
  | nil =>
    intro bad rest msgs execs _ hbad hnone
    simp [runTools, hbad, hnone, toolUseNames]
  | cons m p ih =>
    intro bad rest msgs execs h hbad hnone
    by_cases ht : (m.type == ContentTypeToolUse) = true
    · cases hcall : tools m.name with
      | none => simp [turnOk, ht, hcall] at h
      | some call =>
        cases hres : call m.input with
        | error e => simp [turnOk, ht, hcall, hres] at h
        | ok result =>
          have h2 : turnOk tools p = true := by
            simpa [turnOk, ht, hcall, hres] using h
          simp [runTools, toolUseNames, ht, hcall, hres, ih _ _ _ _ h2 hbad hnone]
    · have h2 : turnOk tools p = true := by simpa [turnOk, ht] using h
      simp [runTools, toolUseNames, ht, ih _ _ _ _ h2 hbad hnone]

/-- When the turn reaches a `tool_use` block whose registered handler fails,
after a run of successful invocations, `runTools` stops with the handler's
error, having executed the earlier invocations and the failing one. -/
theorem runTools_handlerError (tools : String → Option (Llm.ToolArgs → Except GoErr String)) :
    ∀ (pre : List Content) (bad : Content) (rest : List Content)
      (call : Llm.ToolArgs → Except GoErr String) (e : GoErr)
      (msgs : List ClaudeMessage) (execs : List String),
      turnOk tools pre = true →
      bad.type = ContentTypeToolUse →
      tools bad.name = some call →
      call bad.input = .error e →
      runTools tools (pre ++ bad :: rest) msgs execs =
        (.error e, execs ++ toolUseNames pre ++ [bad.name]) := by
  intro pre
  induction pre with
  | nil =>
    intro bad rest call e msgs execs _ hbad hcall herr
    simp [runTools, hbad, hcall, herr, toolUseNames]
  | cons m p ih =>
    intro bad rest call e msgs execs h hbad hcall herr
    by_cases ht : (m.type == ContentTypeToolUse) = true
    · cases hc : tools m.name with
      | none => simp [turnOk, ht, hc] at h
      | some c =>
        cases hr : c m.input with
        | error e2 => simp [turnOk, ht, hc, hr] at h
        | ok result =>
          have h2 : turnOk tools p = true := by
            simpa [turnOk, ht, hc, hr] using h
          simp [runTools, toolUseNames, ht, hc, hr, ih _ _ _ _ _ _ h2 hbad hcall herr]
    · have h2 : turnOk tools p = true := by simpa [turnOk, ht] using h
      simp [runTools, toolUseNames, ht, ih _ _ _ _ _ _ h2 hbad hcall herr]

/-- Outcome of `claudeFinish` on success: the usage is returned unchanged
and the log is untouched. -/
theorem claudeFinish_ok (response : ClaudeResponse) (usage : Llm.ModelUsage)
    (log : RunLog) (cr : Llm.CompletionResponse) (log2 : RunLog)
    (h : claudeFinish response usage log = (.ok cr, log2)) :
    cr.usage = usage ∧ log2 = log := by
  unfold claudeFinish at h
  cases hc : response.content with
  | nil => rw [hc] at h; simp at h
  | cons c cs =>
    rw [hc] at h
    simp only [Prod.mk.injEq, Outcome.ok.injEq] at h
    obtain ⟨h1, h2⟩ := h
    exact ⟨by rw [← h1], h2.symm⟩

/-- One iteration of the tool loop on a fully successful tool turn: the
assistant turn and all its tool-result messages are appended to the request,
the provider is invoked exactly once more, the usage delta is added, and the
loop continues with the new response and one round less. -/
theorem claudeLoop_step (client : Client) (model : String)
    (tools : String → Option (Llm.ToolArgs → Except GoErr String)) (r : Nat)
    (request : ClaudeRequest) (response resp2 : ClaudeResponse)
    (usage : Llm.ModelUsage) (log : RunLog)
    (hstop : response.stopReason = ContentTypeToolUse)
    (hok : turnOk tools response.content = true)
    (hinv : client.invoke log.providerCalls model
      { request with messages := request.messages ++
          [ClaudeMessage.mk ChatMessageRoleAssistant response.content] ++
          toolResultMsgs tools response.content } = .ok resp2) :
    claudeLoop client model tools (r + 1) request response usage log =
      claudeLoop client model tools r
        { request with messages := request.messages ++
            [ClaudeMessage.mk ChatMessageRoleAssistant response.content] ++
            toolResultMsgs tools response.content }
        resp2
        { usage with
          inputTokens := usage.inputTokens + resp2.usage.inputTokens,
          outputTokens := usage.outputTokens + resp2.usage.outputTokens }
        { providerCalls := log.providerCalls + 1,
          deltas := log.deltas ++ [resp2.usage],
          toolExecs := log.toolExecs ++ toolUseNames response.content } := by
  have hrun := runTools_ok tools response.content
    (request.messages ++ [ClaudeMessage.mk ChatMessageRoleAssistant response.content])
    log.toolExecs hok
  simp only [claudeLoop, hstop, beq_self_eq_true, if_true]
  simp only [hrun]
  simp only [hinv]

/-- Usage invariant of the tool loop: whenever the cumulative usage equals
the sums of the logged per-turn deltas on entry, a successful exit returns a
cumulative usage equal to the sums of the final logged deltas. -/
theorem claudeLoop_usage (client : Client) (model : String)
    (tools : String → Option (Llm.ToolArgs → Except GoErr String)) :
    ∀ (r : Nat) (request : ClaudeRequest) (response : ClaudeResponse)
      (usage : Llm.ModelUsage) (log : RunLog)
      (cr : Llm.CompletionResponse) (log2 : RunLog),
      usage.inputTokens = sumIn log.deltas →
      usage.outputTokens = sumOut log.deltas →
      claudeLoop client model tools r request response usage log = (.ok cr, log2) →
      cr.usage.inputTokens = sumIn log2.deltas ∧
        cr.usage.outputTokens = sumOut log2.deltas := by
  intro r
  induction r with
  | zero =>
    intro request response usage log cr log2 h1 h2 hrun
    simp only [claudeLoop] at hrun
    by_cases hstop : (response.stopReason == ContentTypeToolUse) = true
    · rw [if_pos hstop] at hrun
      obtain ⟨hu, hl⟩ := claudeFinish_ok _ _ _ _ _ hrun
      subst hl
      exact ⟨by rw [hu, h1], by rw [hu, h2]⟩
    · rw [if_neg hstop] at hrun
      obtain ⟨hu, hl⟩ := claudeFinish_ok _ _ _ _ _ hrun
      subst hl
      exact ⟨by rw [hu, h1], by rw [hu, h2]⟩
  | succ n ih =>
    intro request response usage log cr log2 h1 h2 hrun
    simp only [claudeLoop] at hrun
    by_cases hstop : (response.stopReason == ContentTypeToolUse) = true
    · rw [if_pos hstop] at hrun
      cases hrt : runTools tools response.content
          (request.messages ++ [ClaudeMessage.mk ChatMessageRoleAssistant response.content])
          log.toolExecs with
      | mk res execs =>
        rw [hrt] at hrun
        cases res with
        | error e => simp at hrun
        | ok msgs =>
          simp only at hrun
          cases hin : client.invoke ({ log with toolExecs := execs }).providerCalls model
              { request with messages := msgs } with
          | error e => rw [hin] at hrun; simp at hrun
          | ok resp2 =>
            rw [hin] at hrun
            simp only at hrun
            refine ih _ _ _ _ _ _ ?_ ?_ hrun
            · simp [sumIn_append, sumIn, h1]
            · simp [sumOut_append, sumOut, h2]
    · rw [if_neg hstop] at hrun
      obtain ⟨hu, hl⟩ := claudeFinish_ok _ _ _ _ _ hrun
      subst hl
      exact ⟨by rw [hu, h1], by rw [hu, h2]⟩

/-- Under a provider that on every invocation returns a tool turn whose
invocations are all registered and succeed, the loop consumes all its
remaining rounds, makes exactly one provider invocation per round, and then
exits through `claudeFinish` with a success result. -/
theorem claudeLoop_allTool (client : Client) (model : String)
    (tools : String → Option (Llm.ToolArgs → Except GoErr String))
    (hcli : ∀ (n : Nat) (rq : ClaudeRequest), ∃ resp,
      client.invoke n model rq = .ok resp ∧
      resp.stopReason = ContentTypeToolUse ∧
      turnOk tools resp.content = true ∧ resp.content ≠ []) :
    ∀ (r : Nat) (request : ClaudeRequest) (response : ClaudeResponse)
      (usage : Llm.ModelUsage) (log : RunLog),
      response.stopReason = ContentTypeToolUse →
      turnOk tools response.content = true →
      response.content ≠ [] →
      ∃ cr log2,
        claudeLoop client model tools r request response usage log = (.ok cr, log2) ∧
        log2.providerCalls = log.providerCalls + r := by
  intro r
  induction r with
  | zero =>
    intro request response usage log hstop hok hne
    cases hc : response.content with
    | nil => exact absurd hc hne
    | cons c cs =>
      refine ⟨{ message := { role := Llm.RoleAssistant, content := goTrimSpace c.text },
                usage := usage }, log, ?_, by omega⟩
      simp [claudeLoop, hstop, claudeFinish, hc]
  | succ n ih =>
    intro request response usage log hstop hok hne
    obtain ⟨resp2, hinv, hstop2, hok2, hne2⟩ := hcli log.providerCalls
      { request with messages := request.messages ++
          [ClaudeMessage.mk ChatMessageRoleAssistant response.content] ++
          toolResultMsgs tools response.content }
    rw [claudeLoop_step client model tools n request response resp2 usage log
      hstop hok hinv]
    obtain ⟨cr, log2, heq, hpc⟩ := ih _ resp2 _ _ hstop2 hok2 hne2
    refine ⟨cr, log2, heq, ?_⟩
    simp only [hpc]
    omega

end Anthropic

/-- C1 (amended).  When the provider returns a tool-call turn (naming
registered, succeeding tools) on every round trip, the Anthropic adapter
terminates after exactly 6 tool round trips (7 provider invocations) and
returns a SUCCESS result — there is no ToolLoopExceeded failure in the code;
the Vertex adapter in the same scenario performs exactly one tool round trip
(2 provider invocations) and returns a nil response with nil error. -/
theorem C1_loop_bound_no_failure :
    (∀ (client : Anthropic.Client) (req : Llm.CompletionRequest)
       (msgs : List Anthropic.ClaudeMessage),
      client.transformMessages req.messages = .ok msgs →
      (∀ (n : Nat) (rq : Anthropic.ClaudeRequest), ∃ resp,
        client.invoke n req.model rq = .ok resp ∧
        resp.stopReason = Anthropic.ContentTypeToolUse ∧
        Anthropic.turnOk (Anthropic.lookupTool req.tools) resp.content = true ∧
        resp.content ≠ []) →
      ∃ cr log2, Anthropic.Completion client req = (.ok cr, log2) ∧
        log2.providerCalls = 7)
    ∧
    (∀ (client : Vertex.Client) (req : Llm.CompletionRequest) (m0 : Llm.Message)
       (ms : List Llm.Message) (h0 : Vertex.GenaiContent)
       (hs : List Vertex.GenaiContent),
      req.messages = m0 :: ms →
      client.transformToHistory req.messages = .ok (h0 :: hs) →
      (∀ (n : Nat) (hist : List Vertex.GenaiContent),
        ∃ gen cand crest fname fargs prest,
          client.send n hist = .ok gen ∧
          gen.candidates = cand :: crest ∧
          cand.content.parts = Vertex.GenaiPart.functionCall fname fargs :: prest) →
      (∀ (f : String) (a : Llm.ToolArgs), ∃ s, client.callTool f a = .ok s) →
      (∀ (s : String), ∃ m, client.jsonUnmarshalMap s = .ok m) →
      ∃ log2, Vertex.Completion client req = (.ok none, log2) ∧
        log2.providerCalls = 2 ∧ log2.toolExecs.length = 1) := by
  constructor
  · intro client req msgs htm hcli
    obtain ⟨resp, hinv, hstop, hok, hne⟩ := hcli 0
      { anthropicVersion := "bedrock-2023-05-31", messages := msgs,
        system := req.systemPrompt, maxTokens := req.maxTokens,
        topP := req.topP, temperature := req.temperature,
        tools := client.transformTools req.tools }
    obtain ⟨cr, log2, heq, hpc⟩ :=
      Anthropic.claudeLoop_allTool client req.model (Anthropic.lookupTool req.tools)
        hcli 6
        { anthropicVersion := "bedrock-2023-05-31", messages := msgs,
          system := req.systemPrompt, maxTokens := req.maxTokens,
          topP := req.topP, temperature := req.temperature,
          tools := client.transformTools req.tools }
        resp
        { userId := req.userId, model := resp.model,
          inputTokens := resp.usage.inputTokens,
          outputTokens := resp.usage.outputTokens }
        { providerCalls := 1, deltas := [resp.usage], toolExecs := [] }
        hstop hok hne
    refine ⟨cr, log2, ?_, by simpa using hpc⟩
    simp only [Anthropic.Completion, htm]
    rw [hinv]
    exact heq
  · intro client req m0 ms h0 hs hreq hth hsend hcall hjson
    have hlen : (req.messages.length == 0) = false := by simp [hreq]
    obtain ⟨gen, cand, crest, fname, fargs, prest, hs1, hc1, hp1⟩ :=
      hsend 0 (h0 :: hs)
    obtain ⟨rs, hrs⟩ := hcall fname fargs
    obtain ⟨pm, hpm⟩ := hjson rs
    obtain ⟨gen2, cand2, crest2, fname2, fargs2, prest2, hs2, hc2, hp2⟩ :=
      hsend 1 ((h0 :: hs) ++
        [Vertex.GenaiContent.mk Vertex.RoleModel
          [Vertex.GenaiPart.functionCall fname fargs]] ++
        [Vertex.GenaiContent.mk Vertex.RoleUser
          [Vertex.GenaiPart.functionResponse fname pm]])
    refine ⟨{ providerCalls := 2, deltas := [gen.usageMetadata, gen2.usageMetadata],
              toolExecs := [fname] }, ?_, rfl, rfl⟩
    simp only [Vertex.Completion, hlen, Bool.false_eq_true, if_false, hth]
    rw [hs1]
    simp only [hc1, hp1]
    rw [hrs]
    simp only [hpm, List.append_assoc]
    rw [← List.append_assoc]
    rw [hs2]
    simp [Vertex.vertexFinish, hc2, hp2]

/-- C1 counterexample: with a provider stub that always returns a tool-call
turn, the Anthropic completion returns a SUCCESS result (the trimmed empty
text of the last tool turn's first block) after 6 tool round trips and 7
provider invocations — it does not fail, so no ToolLoopExceeded error is
surfaced. -/
theorem C1_counterexample :
    Anthropic.Completion c1Client c1Req =
      (.ok { message := { role := "assistant", content := "" },
             usage := { userId := "user-1", model := "claude-3",
                        inputTokens := 21, outputTokens := 35 } },
       { providerCalls := 7,
         deltas := List.replicate 7 { inputTokens := 3, outputTokens := 5 },
         toolExecs := List.replicate 6 "get_sources" }) := by
  rfl

/-- C1 witness: the amended theorem applied to the concrete stubs. -/
theorem C1_witness :
    (∃ cr log2, Anthropic.Completion c1Client c1Req = (.ok cr, log2) ∧
      log2.providerCalls = 7) ∧
    (∃ log2, Vertex.Completion c1VClient c1VReq = (.ok none, log2) ∧
      log2.providerCalls = 2 ∧ log2.toolExecs.length = 1) := by
  constructor
  · exact C1_loop_bound_no_failure.1 c1Client c1Req [] rfl
      (fun n rq => ⟨c1ToolTurn, rfl, rfl, by decide, by decide⟩)
  · exact C1_loop_bound_no_failure.2 c1VClient c1VReq ⟨"user", "hi"⟩ []
      ⟨"user", [Vertex.GenaiPart.text "hi"]⟩ [] rfl rfl
      (fun n hist => ⟨_, _, _, "get_sources", "{}", [], rfl, rfl, rfl⟩)
      (fun f a => ⟨"{}", rfl⟩) (fun s => ⟨s, rfl⟩)

/-- Adding one more turn never decreases the cumulative input-token sum. -/
theorem sumIn_take_mono (ds : List Anthropic.ClaudeUsage) (n : Nat) :
    Anthropic.sumIn (ds.take n) ≤ Anthropic.sumIn (ds.take (n + 1)) := by
  rw [List.take_succ, Anthropic.sumIn_append]
  omega

/-- Adding one more turn never decreases the cumulative output-token sum. -/
theorem sumOut_take_mono (ds : List Anthropic.ClaudeUsage) (n : Nat) :
    Anthropic.sumOut (ds.take n) ≤ Anthropic.sumOut (ds.take (n + 1)) := by
  rw [List.take_succ, Anthropic.sumOut_append]
  omega

/-- Vertex variant of `sumIn_take_mono`. -/
theorem sumEffIn_take_mono (ds : List (Option Vertex.UsageMetadata)) (n : Nat) :
    Vertex.sumEffIn (ds.take n) ≤ Vertex.sumEffIn (ds.take (n + 1)) := by
  unfold Vertex.sumEffIn
  rw [List.take_succ, List.map_append, List.sum_append]
  omega

/-- Vertex variant of `sumOut_take_mono`. -/
theorem sumEffOut_take_mono (ds : List (Option Vertex.UsageMetadata)) (n : Nat) :
    Vertex.sumEffOut (ds.take n) ≤ Vertex.sumEffOut (ds.take (n + 1)) := by
  unfold Vertex.sumEffOut
  rw [List.take_succ, List.map_append, List.sum_append]
  omega

/-- Outcome of `vertexFinish` on a non-nil success: the usage is returned
unchanged and the log is untouched. -/
theorem vertexFinish_ok_some (gen : Vertex.GenResponse) (usage : Llm.ModelUsage)
    (log : Vertex.RunLog) (cr : Llm.CompletionResponse) (log2 : Vertex.RunLog)
    (h : Vertex.vertexFinish gen usage log = (.ok (some cr), log2)) :
    cr.usage = usage ∧ log2 = log := by
  unfold Vertex.vertexFinish at h
  cases hc : gen.candidates with
  | nil => rw [hc] at h; simp at h
  | cons cand crest =>
    rw [hc] at h
    cases hp : cand.content.parts with
    | nil => simp [hp] at h
    | cons p ps =>
      cases p with
      | text txt =>
        simp only [hp, Prod.mk.injEq, Outcome.ok.injEq, Option.some.injEq] at h
        obtain ⟨h1, h2⟩ := h
        exact ⟨by rw [← h1], h2.symm⟩
      | functionCall f a => simp [hp] at h
      | functionResponse f r => simp [hp] at h

/-- C2.  In both adapters, the cumulative usage returned on success equals
the sum of the per-round-trip usage deltas recorded during the completion
(for Vertex, a response with missing usage metadata contributes a zero
delta), and the cumulative sums are monotonically non-decreasing as turns
are added. -/
theorem C2_usage_sums :
    (∀ (client : Anthropic.Client) (req : Llm.CompletionRequest)
       (cr : Llm.CompletionResponse) (log2 : Anthropic.RunLog),
      Anthropic.Completion client req = (.ok cr, log2) →
      cr.usage.inputTokens = Anthropic.sumIn log2.deltas ∧
        cr.usage.outputTokens = Anthropic.sumOut log2.deltas) ∧
    (∀ (client : Vertex.Client) (req : Llm.CompletionRequest)
       (cr : Llm.CompletionResponse) (log2 : Vertex.RunLog),
      Vertex.Completion client req = (.ok (some cr), log2) →
      cr.usage.inputTokens = Vertex.sumEffIn log2.deltas ∧
        cr.usage.outputTokens = Vertex.sumEffOut log2.deltas) ∧
    (∀ (ds : List Anthropic.ClaudeUsage) (n : Nat),
      Anthropic.sumIn (ds.take n) ≤ Anthropic.sumIn (ds.take (n + 1)) ∧
        Anthropic.sumOut (ds.take n) ≤ Anthropic.sumOut (ds.take (n + 1))) ∧
    (∀ (ds : List (Option Vertex.UsageMetadata)) (n : Nat),
      Vertex.sumEffIn (ds.take n) ≤ Vertex.sumEffIn (ds.take (n + 1)) ∧
        Vertex.sumEffOut (ds.take n) ≤ Vertex.sumEffOut (ds.take (n + 1))) := by
  refine ⟨?_, ?_, fun ds n => ⟨sumIn_take_mono ds n, sumOut_take_mono ds n⟩,
    fun ds n => ⟨sumEffIn_take_mono ds n, sumEffOut_take_mono ds n⟩⟩
  · intro client req cr log2 h
    unfold Anthropic.Completion at h
    cases htm : client.transformMessages req.messages with
    | error e => rw [htm] at h; simp at h
    | ok msgs =>
      rw [htm] at h
      simp only at h
      cases hin : client.invoke 0 req.model
          { anthropicVersion := "bedrock-2023-05-31", messages := msgs,
            system := req.systemPrompt, maxTokens := req.maxTokens,
            topP := req.topP, temperature := req.temperature,
            tools := client.transformTools req.tools } with
      | error e => rw [hin] at h; simp at h
      | ok resp =>
        rw [hin] at h
        simp only at h
        exact Anthropic.claudeLoop_usage client req.model
          (Anthropic.lookupTool req.tools) 6 _ resp _ _ cr log2
          (by simp [Anthropic.sumIn]) (by simp [Anthropic.sumOut]) h
  · intro client req cr log2 h
    unfold Vertex.Completion at h
    by_cases hlen : (req.messages.length == 0) = true
    · rw [if_pos hlen] at h; simp at h
    · rw [if_neg hlen] at h
      cases hth : client.transformToHistory req.messages with
      | error e => rw [hth] at h; simp at h
      | ok history =>
        rw [hth] at h
        cases history with
        | nil => simp at h
        | cons h0 hs =>
          simp only at h
          cases hs1 : client.send 0 (h0 :: hs) with
          | error e => rw [hs1] at h; simp at h
          | ok gen =>
            rw [hs1] at h
            simp only at h
            cases hc1 : gen.candidates with
            | nil => rw [hc1] at h; simp at h
            | cons cand crest =>
              rw [hc1] at h
              simp only at h
              cases hp1 : cand.content.parts with
              | nil => rw [hp1] at h; simp at h
              | cons part0 prest =>
                rw [hp1] at h
                simp only at h
                cases part0 with
                | text txt =>
                  simp only at h
                  obtain ⟨hu, hl⟩ := vertexFinish_ok_some _ _ _ _ _ h
                  subst hl
                  constructor
                  · simp [hu, Vertex.sumEffIn]
                  · simp [hu, Vertex.sumEffOut]
                | functionResponse f r =>
                  simp only at h
                  obtain ⟨hu, hl⟩ := vertexFinish_ok_some _ _ _ _ _ h
                  subst hl
                  constructor
                  · simp [hu, Vertex.sumEffIn]
                  · simp [hu, Vertex.sumEffOut]
                | functionCall fname fargs =>
                  simp only at h
                  cases hct : client.callTool fname fargs with
                  | error e => rw [hct] at h; simp at h
                  | ok resultStr =>
                    rw [hct] at h
                    simp only at h
                    cases hjs : client.jsonUnmarshalMap resultStr with
                    | error e => rw [hjs] at h; simp at h
                    | ok results =>
                      rw [hjs] at h
                      simp only at h
                      cases hs2 : client.send 1
                          ((h0 :: hs) ++
                            [Vertex.GenaiContent.mk Vertex.RoleModel
                              [Vertex.GenaiPart.functionCall fname fargs]] ++
                            [Vertex.GenaiContent.mk Vertex.RoleUser
                              [Vertex.GenaiPart.functionResponse fname results]]) with
                      | error e => rw [hs2] at h; simp at h
                      | ok gen2 =>
                        rw [hs2] at h
                        simp only at h
                        obtain ⟨hu, hl⟩ := vertexFinish_ok_some _ _ _ _ _ h
                        subst hl
                        constructor
                        · simp [hu, Vertex.sumEffIn]
                        · simp [hu, Vertex.sumEffOut]

/-- C2 witness: the sum theorem applied to concrete two-turn runs of both
adapters (the second Vertex turn omits usage metadata). -/
theorem C2_witness :
    (c2Cr.usage.inputTokens = Anthropic.sumIn c2Log.deltas ∧
      c2Cr.usage.outputTokens = Anthropic.sumOut c2Log.deltas) ∧
    (c2VCr.usage.inputTokens = Vertex.sumEffIn c2VLog.deltas ∧
      c2VCr.usage.outputTokens = Vertex.sumEffOut c2VLog.deltas) ∧
    (Anthropic.sumIn (c2Log.deltas.take 1) ≤ Anthropic.sumIn (c2Log.deltas.take 2) ∧
      Anthropic.sumOut (c2Log.deltas.take 1) ≤ Anthropic.sumOut (c2Log.deltas.take 2)) ∧
    (Vertex.sumEffIn (c2VLog.deltas.take 1) ≤ Vertex.sumEffIn (c2VLog.deltas.take 2) ∧
      Vertex.sumEffOut (c2VLog.deltas.take 1) ≤ Vertex.sumEffOut (c2VLog.deltas.take 2)) :=
  ⟨C2_usage_sums.1 c2Client c2Req c2Cr c2Log rfl,
   C2_usage_sums.2.1 c2VClient c2VReq c2VCr c2VLog (by decide),
   C2_usage_sums.2.2.1 c2Log.deltas 1,
   C2_usage_sums.2.2.2 c2VLog.deltas 1⟩

namespace Anthropic

/-- When a processed turn contains a `tool_use` block naming an unregistered
tool (after a run of successful invocations), the loop returns the
`unknown tool` error at once: the log's provider-call count is unchanged, so
no further provider round trip happens. -/
theorem claudeLoop_unknownTool (client : Client) (model : String)
    (tools : String → Option (Llm.ToolArgs → Except GoErr String)) (r : Nat)
    (request : ClaudeRequest) (response : ClaudeResponse)
    (usage : Llm.ModelUsage) (log : RunLog)
    (pre : List Content) (bad : Content) (rest : List Content)
    (hstop : response.stopReason = ContentTypeToolUse)
    (hcont : response.content = pre ++ bad :: rest)
    (hbad : bad.type = ContentTypeToolUse)
    (hnone : tools bad.name = none)
    (hpre : turnOk tools pre = true) :
    claudeLoop client model tools (r + 1) request response usage log =
      (.error ("unknown tool " ++ bad.name),
       { log with toolExecs := log.toolExecs ++ toolUseNames pre }) := by
  have hrt := runTools_unknown tools pre bad rest
    (request.messages ++
      [ClaudeMessage.mk ChatMessageRoleAssistant (pre ++ bad :: rest)])
    log.toolExecs hpre hbad hnone
  simp only [claudeLoop, hstop, beq_self_eq_true, if_true, hcont]
  rw [hrt]

/-- When a processed turn contains a `tool_use` block whose registered
handler fails (after a run of successful invocations), the loop returns the
handler's error at once: no response message is produced and no further
provider round trip happens. -/
theorem claudeLoop_toolError (client : Client) (model : String)
    (tools : String → Option (Llm.ToolArgs → Except GoErr String)) (r : Nat)
    (request : ClaudeRequest) (response : ClaudeResponse)
    (usage : Llm.ModelUsage) (log : RunLog)
    (pre : List Content) (bad : Content) (rest : List Content)
    (call : Llm.ToolArgs → Except GoErr String) (e : GoErr)
    (hstop : response.stopReason = ContentTypeToolUse)
    (hcont : response.content = pre ++ bad :: rest)
    (hbad : bad.type = ContentTypeToolUse)
    (hcall : tools bad.name = some call)
    (herr : call bad.input = .error e)
    (hpre : turnOk tools pre = true) :
    claudeLoop client model tools (r + 1) request response usage log =
      (.error e,
       { log with toolExecs := log.toolExecs ++ toolUseNames pre ++ [bad.name] }) := by
  have hrt := runTools_handlerError tools pre bad rest call e
    (request.messages ++
      [ClaudeMessage.mk ChatMessageRoleAssistant (pre ++ bad :: rest)])
    log.toolExecs hpre hbad hcall herr
  simp only [claudeLoop, hstop, beq_self_eq_true, if_true, hcont]
  rw [hrt]

end Anthropic

/-- C4.  Whenever a processed provider turn contains a tool invocation whose
name is absent from the registry, the Anthropic completion fails immediately
with the `unknown tool` error: at any loop state the provider-call count is
left unchanged, and on a first-turn instance the whole `Completion` returns
the error after exactly the one provider invocation that produced the
turn. -/
theorem C4_unknown_tool :
    (∀ (client : Anthropic.Client) (model : String)
       (tools : String → Option (Llm.ToolArgs → Except GoErr String)) (r : Nat)
       (request : Anthropic.ClaudeRequest) (response : Anthropic.ClaudeResponse)
       (usage : Llm.ModelUsage) (log : Anthropic.RunLog)
       (pre : List Anthropic.Content) (bad : Anthropic.Content)
       (rest : List Anthropic.Content),
      response.stopReason = Anthropic.ContentTypeToolUse →
      response.content = pre ++ bad :: rest →
      bad.type = Anthropic.ContentTypeToolUse →
      tools bad.name = none →
      Anthropic.turnOk tools pre = true →
      Anthropic.claudeLoop client model tools (r + 1) request response usage log =
        (.error ("unknown tool " ++ bad.name),
         { log with toolExecs := log.toolExecs ++ Anthropic.toolUseNames pre }))
    ∧
    (∀ (client : Anthropic.Client) (req : Llm.CompletionRequest)
       (msgs : List Anthropic.ClaudeMessage) (resp : Anthropic.ClaudeResponse)
       (pre : List Anthropic.Content) (bad : Anthropic.Content)
       (rest : List Anthropic.Content),
      client.transformMessages req.messages = .ok msgs →
      (∀ rq, client.invoke 0 req.model rq = .ok resp) →
      resp.stopReason = Anthropic.ContentTypeToolUse →
      resp.content = pre ++ bad :: rest →
      bad.type = Anthropic.ContentTypeToolUse →
      Anthropic.lookupTool req.tools bad.name = none →
      Anthropic.turnOk (Anthropic.lookupTool req.tools) pre = true →
      Anthropic.Completion client req =
        (.error ("unknown tool " ++ bad.name),
         { providerCalls := 1, deltas := [resp.usage],
           toolExecs := Anthropic.toolUseNames pre })) := by
  constructor
  · intro client model tools r request response usage log pre bad rest
      hstop hcont hbad hnone hpre
    exact Anthropic.claudeLoop_unknownTool client model tools r request response
      usage log pre bad rest hstop hcont hbad hnone hpre
  · intro client req msgs resp pre bad rest htm hinv hstop hcont hbad hnone hpre
    simp only [Anthropic.Completion, htm]
    rw [hinv]
    exact Anthropic.claudeLoop_unknownTool client req.model
      (Anthropic.lookupTool req.tools) 5 _ resp _ _ pre bad rest
      hstop hcont hbad hnone hpre

/-- C4 witness: the theorem applied to a concrete turn that names the
unregistered tool `mystery` after a successful `get_sources` invocation. -/
theorem C4_witness :
    Anthropic.Completion c4Client c4Req =
      (.error ("unknown tool " ++ "mystery"),
       { providerCalls := 1,
         deltas := [{ inputTokens := 4, outputTokens := 6 }],
         toolExecs := Anthropic.toolUseNames
           [{ type := "tool_use", name := "get_sources", input := "{}", id := "t1" }] }) :=
  C4_unknown_tool.2 c4Client c4Req []
    { model := "claude-3", stopReason := "tool_use",
      content :=
        [{ type := "tool_use", name := "get_sources", input := "{}", id := "t1" },
         { type := "tool_use", name := "mystery", input := "{}", id := "t2" }],
      usage := { inputTokens := 4, outputTokens := 6 } }
    [{ type := "tool_use", name := "get_sources", input := "{}", id := "t1" }]
    { type := "tool_use", name := "mystery", input := "{}", id := "t2" } []
    rfl (fun rq => rfl) rfl rfl rfl rfl (by decide)

/-- C5.  When a registered tool handler fails, the whole completion aborts
with the handler's error and no final assistant message: in the Anthropic
adapter at any loop state (and from `Completion` on a first-turn instance),
and in the Vertex adapter when its tool dispatch fails. -/
theorem C5_handler_error_aborts :
    (∀ (client : Anthropic.Client) (model : String)
       (tools : String → Option (Llm.ToolArgs → Except GoErr String)) (r : Nat)
       (request : Anthropic.ClaudeRequest) (response : Anthropic.ClaudeResponse)
       (usage : Llm.ModelUsage) (log : Anthropic.RunLog)
       (pre : List Anthropic.Content) (bad : Anthropic.Content)
       (rest : List Anthropic.Content)
       (call : Llm.ToolArgs → Except GoErr String) (e : GoErr),
      response.stopReason = Anthropic.ContentTypeToolUse →
      response.content = pre ++ bad :: rest →
      bad.type = Anthropic.ContentTypeToolUse →
      tools bad.name = some call →
      call bad.input = .error e →
      Anthropic.turnOk tools pre = true →
      Anthropic.claudeLoop client model tools (r + 1) request response usage log =
        (.error e,
         { log with toolExecs := log.toolExecs ++ Anthropic.toolUseNames pre ++ [bad.name] }))
    ∧
    (∀ (client : Anthropic.Client) (req : Llm.CompletionRequest)
       (msgs : List Anthropic.ClaudeMessage) (resp : Anthropic.ClaudeResponse)
       (pre : List Anthropic.Content) (bad : Anthropic.Content)
       (rest : List Anthropic.Content)
       (call : Llm.ToolArgs → Except GoErr String) (e : GoErr),
      client.transformMessages req.messages = .ok msgs →
      (∀ rq, client.invoke 0 req.model rq = .ok resp) →
      resp.stopReason = Anthropic.ContentTypeToolUse →
      resp.content = pre ++ bad :: rest →
      bad.type = Anthropic.ContentTypeToolUse →
      Anthropic.lookupTool req.tools bad.name = some call →
      call bad.input = .error e →
      Anthropic.turnOk (Anthropic.lookupTool req.tools) pre = true →
      Anthropic.Completion client req =
        (.error e,
         { providerCalls := 1, deltas := [resp.usage],
           toolExecs := Anthropic.toolUseNames pre ++ [bad.name] }))
    ∧
    (∀ (client : Vertex.Client) (req : Llm.CompletionRequest) (m0 : Llm.Message)
       (ms : List Llm.Message) (h0 : Vertex.GenaiContent)
       (hs : List Vertex.GenaiContent) (gen : Vertex.GenResponse)
       (cand : Vertex.Candidate) (crest : List Vertex.Candidate)
       (fname : String) (fargs : Llm.ToolArgs) (prest : List Vertex.GenaiPart)
       (e : GoErr),
      req.messages = m0 :: ms →
      client.transformToHistory req.messages = .ok (h0 :: hs) →
      client.send 0 (h0 :: hs) = .ok gen →
      gen.candidates = cand :: crest →
      cand.content.parts = Vertex.GenaiPart.functionCall fname fargs :: prest →
      client.callTool fname fargs = .error e →
      Vertex.Completion client req =
        (.error e,
         { providerCalls := 1, deltas := [gen.usageMetadata],
           toolExecs := [fname] })) := by
  refine ⟨?_, ?_, ?_⟩
  · intro client model tools r request response usage log pre bad rest call e
      hstop hcont hbad hcall herr hpre
    exact Anthropic.claudeLoop_toolError client model tools r request response
      usage log pre bad rest call e hstop hcont hbad hcall herr hpre
  · intro client req msgs resp pre bad rest call e htm hinv hstop hcont hbad
      hcall herr hpre
    simp only [Anthropic.Completion, htm]
    rw [hinv]
    exact Anthropic.claudeLoop_toolError client req.model
      (Anthropic.lookupTool req.tools) 5 _ resp _ _ pre bad rest call e
      hstop hcont hbad hcall herr hpre
  · intro client req m0 ms h0 hs gen cand crest fname fargs prest e
      hreq hth hs1 hc1 hp1 hct
    have hlen : (req.messages.length == 0) = false := by simp [hreq]
    simp only [Vertex.Completion, hlen, Bool.false_eq_true, if_false, hth]
    rw [hs1]
    simp only [hc1, hp1]
    rw [hct]

/-- C5 witness: the theorem applied to concrete runs whose tool handler
fails, in both adapters. -/
theorem C5_witness :
    Anthropic.Completion c5Client c5Req =
      (.error ("search backend down"),
       { providerCalls := 1,
         deltas := [{ inputTokens := 4, outputTokens := 6 }],
         toolExecs := Anthropic.toolUseNames [] ++ ["get_sources"] }) ∧
    Vertex.Completion c5VClient c5VReq =
      (.error ("search backend down"),
       { providerCalls := 1,
         deltas := [some { promptTokenCount := 11, candidatesTokenCount := 3 }],
         toolExecs := ["get_sources"] }) :=
  ⟨C5_handler_error_aborts.2.1 c5Client c5Req []
    { model := "claude-3", stopReason := "tool_use",
      content := [{ type := "tool_use", name := "get_sources",
                    input := "{}", id := "t1" }],
      usage := { inputTokens := 4, outputTokens := 6 } }
    [] { type := "tool_use", name := "get_sources", input := "{}", id := "t1" } []
    (fun _ => .error ("search backend down")) ("search backend down")
    rfl (fun rq => rfl) rfl rfl rfl rfl rfl (by decide),
   C5_handler_error_aborts.2.2 c5VClient c5VReq ⟨"user", "hi"⟩ []
    ⟨"user", [Vertex.GenaiPart.text "hi"]⟩ []
    { candidates := [⟨⟨"model", [Vertex.GenaiPart.functionCall "get_sources" "{}"]⟩⟩],
      usageMetadata := some ⟨11, 3⟩ }
    ⟨⟨"model", [Vertex.GenaiPart.functionCall "get_sources" "{}"]⟩⟩ []
    "get_sources" "{}" [] ("search backend down")
    rfl rfl rfl rfl rfl rfl⟩

/-- C6 (amended).  A first Vertex provider turn with zero candidates, or
with zero content parts in its first candidate, makes `Completion` return a
nil response together with a nil error (Go `return nil, nil`): no
EmptyModelResponse error is surfaced and the adapter itself does not
crash. -/
theorem C6_empty_turn_nil_nil :
    (∀ (client : Vertex.Client) (req : Llm.CompletionRequest) (m0 : Llm.Message)
       (ms : List Llm.Message) (h0 : Vertex.GenaiContent)
       (hs : List Vertex.GenaiContent) (gen : Vertex.GenResponse),
      req.messages = m0 :: ms →
      client.transformToHistory req.messages = .ok (h0 :: hs) →
      client.send 0 (h0 :: hs) = .ok gen →
      gen.candidates = [] →
      Vertex.Completion client req =
        (.ok none,
         { providerCalls := 1, deltas := [gen.usageMetadata], toolExecs := [] }))
    ∧
    (∀ (client : Vertex.Client) (req : Llm.CompletionRequest) (m0 : Llm.Message)
       (ms : List Llm.Message) (h0 : Vertex.GenaiContent)
       (hs : List Vertex.GenaiContent) (gen : Vertex.GenResponse)
       (cand : Vertex.Candidate) (crest : List Vertex.Candidate),
      req.messages = m0 :: ms →
      client.transformToHistory req.messages = .ok (h0 :: hs) →
      client.send 0 (h0 :: hs) = .ok gen →
      gen.candidates = cand :: crest →
      cand.content.parts = [] →
      Vertex.Completion client req =
        (.ok none,
         { providerCalls := 1, deltas := [gen.usageMetadata], toolExecs := [] })) := by
  constructor
  · intro client req m0 ms h0 hs gen hreq hth hs1 hc1
    have hlen : (req.messages.length == 0) = false := by simp [hreq]
    simp only [Vertex.Completion, hlen, Bool.false_eq_true, if_false, hth]
    rw [hs1]
    simp only [hc1]
  · intro client req m0 ms h0 hs gen cand crest hreq hth hs1 hc1 hp1
    have hlen : (req.messages.length == 0) = false := by simp [hreq]
    simp only [Vertex.Completion, hlen, Bool.false_eq_true, if_false, hth]
    rw [hs1]
    simp only [hc1, hp1]

/-- C6 counterexample: on a provider turn with zero content parts the Vertex
completion returns a nil response and a NIL error — the claimed
EmptyModelResponse failure is never surfaced to the caller. -/
theorem C6_counterexample :
    Vertex.Completion c6Client c6Req =
      (.ok none,
       { providerCalls := 1, deltas := [some ⟨9, 0⟩], toolExecs := [] }) ∧
    (Vertex.Completion c6Client c6Req).1.isErr = false := by
  constructor
  · rfl
  · rfl

/-- C6 witness: the amended theorem applied to the two concrete empty-turn
stubs. -/
theorem C6_witness :
    Vertex.Completion c6Client c6Req =
      (.ok none,
       { providerCalls := 1, deltas := [some ⟨9, 0⟩], toolExecs := [] }) ∧
    Vertex.Completion c6PartsClient c6Req =
      (.ok none, { providerCalls := 1, deltas := [none], toolExecs := [] }) :=
  ⟨C6_empty_turn_nil_nil.1 c6Client c6Req ⟨"user", "hi"⟩ []
    ⟨"user", [Vertex.GenaiPart.text "hi"]⟩ []
    { candidates := [], usageMetadata := some ⟨9, 0⟩ } rfl rfl rfl rfl,
   C6_empty_turn_nil_nil.2 c6PartsClient c6Req ⟨"user", "hi"⟩ []
    ⟨"user", [Vertex.GenaiPart.text "hi"]⟩ []
    { candidates := [⟨⟨"model", []⟩⟩], usageMetadata := none }
    ⟨⟨"model", []⟩⟩ [] rfl rfl rfl rfl rfl⟩

/-- The Vertex finish step never changes the run log. -/
theorem vertexFinish_log (gen : Vertex.GenResponse) (usage : Llm.ModelUsage)
    (log : Vertex.RunLog) : (Vertex.vertexFinish gen usage log).2 = log := by
  unfold Vertex.vertexFinish
  split
  · rfl
  · split <;> rfl

/-- C7 (amended).  The Anthropic adapter executes every invocation of a
processed tool turn, sequentially in provider order, and appends the
assistant turn plus one tool-result message per invocation to the request
before the single next provider invocation; the Vertex adapter instead
processes only the first content part of a turn, so at most one invocation
per turn executes — any further tool call in the same turn is dropped. -/
theorem C7_batch_vs_drop :
    (∀ (client : Anthropic.Client) (model : String)
       (tools : String → Option (Llm.ToolArgs → Except GoErr String)) (r : Nat)
       (request : Anthropic.ClaudeRequest) (response resp2 : Anthropic.ClaudeResponse)
       (usage : Llm.ModelUsage) (log : Anthropic.RunLog),
      response.stopReason = Anthropic.ContentTypeToolUse →
      Anthropic.turnOk tools response.content = true →
      client.invoke log.providerCalls model
        { request with messages := request.messages ++
            [Anthropic.ClaudeMessage.mk Anthropic.ChatMessageRoleAssistant
              response.content] ++
            Anthropic.toolResultMsgs tools response.content } = .ok resp2 →
      Anthropic.claudeLoop client model tools (r + 1) request response usage log =
        Anthropic.claudeLoop client model tools r
          { request with messages := request.messages ++
              [Anthropic.ClaudeMessage.mk Anthropic.ChatMessageRoleAssistant
                response.content] ++
              Anthropic.toolResultMsgs tools response.content }
          resp2
          { usage with
            inputTokens := usage.inputTokens + resp2.usage.inputTokens,
            outputTokens := usage.outputTokens + resp2.usage.outputTokens }
          { providerCalls := log.providerCalls + 1,
            deltas := log.deltas ++ [resp2.usage],
            toolExecs := log.toolExecs ++ Anthropic.toolUseNames response.content })
    ∧
    (∀ (client : Vertex.Client) (req : Llm.CompletionRequest) (m0 : Llm.Message)
       (ms : List Llm.Message) (h0 : Vertex.GenaiContent)
       (hs : List Vertex.GenaiContent) (gen gen2 : Vertex.GenResponse)
       (cand : Vertex.Candidate) (crest : List Vertex.Candidate)
       (fname : String) (fargs : Llm.ToolArgs) (prest : List Vertex.GenaiPart)
       (resultStr results : String),
      req.messages = m0 :: ms →
      client.transformToHistory req.messages = .ok (h0 :: hs) →
      client.send 0 (h0 :: hs) = .ok gen →
      gen.candidates = cand :: crest →
      cand.content.parts = Vertex.GenaiPart.functionCall fname fargs :: prest →
      client.callTool fname fargs = .ok resultStr →
      client.jsonUnmarshalMap resultStr = .ok results →
      client.send 1 ((h0 :: hs) ++
        [Vertex.GenaiContent.mk Vertex.RoleModel
          [Vertex.GenaiPart.functionCall fname fargs]] ++
        [Vertex.GenaiContent.mk Vertex.RoleUser
          [Vertex.GenaiPart.functionResponse fname results]]) = .ok gen2 →
      (Vertex.Completion client req).2 =
        { providerCalls := 2,
          deltas := [gen.usageMetadata, gen2.usageMetadata],
          toolExecs := [fname] }) := by
  constructor
  · intro client model tools r request response resp2 usage log hstop hok hinv
    exact Anthropic.claudeLoop_step client model tools r request response resp2
      usage log hstop hok hinv
  · intro client req m0 ms h0 hs gen gen2 cand crest fname fargs prest
      resultStr results hreq hth hs1 hc1 hp1 hct hjs hs2
    have hlen : (req.messages.length == 0) = false := by simp [hreq]
    simp only [Vertex.Completion, hlen, Bool.false_eq_true, if_false, hth]
    rw [hs1]
    simp only [hc1, hp1]
    rw [hct]
    simp only [hjs, List.append_assoc]
    rw [← List.append_assoc]
    rw [hs2]
    simp only
    rw [vertexFinish_log]
    simp

/-- C7 counterexample: a Vertex turn returning two tool invocations executes
only the first — the trace of dispatched handlers is exactly
`["get_sources"]` and the second invocation name never appears in it, even
though the completion finishes successfully. -/
theorem C7_counterexample :
    (Vertex.Completion c7VClient c7VReq).2.toolExecs = ["get_sources"] ∧
    (Vertex.Completion c7VClient c7VReq).2.toolExecs.contains "second" = false ∧
    (Vertex.Completion c7VClient c7VReq).1 =
      .ok (some { message := { role := "assistant", content := "answer" },
                  usage := { userId := "user-7", model := "gemini-pro",
                             inputTokens := 10, outputTokens := 1 } }) := by
  refine ⟨rfl, rfl, by decide⟩

/-- C7 witness: the theorem applied to a concrete two-invocation Anthropic
turn and to the concrete two-invocation Vertex turn. -/
theorem C7_witness :
    (Anthropic.claudeLoop c7AClient "claude-3" (Anthropic.lookupTool c7Tools)
        (5 + 1) c7Request c7Turn c7Usage c7Log =
      Anthropic.claudeLoop c7AClient "claude-3" (Anthropic.lookupTool c7Tools) 5
        { c7Request with messages := c7Request.messages ++
            [Anthropic.ClaudeMessage.mk Anthropic.ChatMessageRoleAssistant
              c7Turn.content] ++
            Anthropic.toolResultMsgs (Anthropic.lookupTool c7Tools) c7Turn.content }
        c7Text
        { c7Usage with
          inputTokens := c7Usage.inputTokens + c7Text.usage.inputTokens,
          outputTokens := c7Usage.outputTokens + c7Text.usage.outputTokens }
        { providerCalls := c7Log.providerCalls + 1,
          deltas := c7Log.deltas ++ [c7Text.usage],
          toolExecs := c7Log.toolExecs ++ Anthropic.toolUseNames c7Turn.content }) ∧
    (Vertex.Completion c7VClient c7VReq).2 =
      { providerCalls := 2,
        deltas := [some { promptTokenCount := 10, candidatesTokenCount := 1 }, none],
        toolExecs := ["get_sources"] } :=
  ⟨C7_batch_vs_drop.1 c7AClient "claude-3" (Anthropic.lookupTool c7Tools) 5
    c7Request c7Turn c7Text c7Usage c7Log rfl (by decide) rfl,
   C7_batch_vs_drop.2 c7VClient c7VReq ⟨"user", "hi"⟩ []
    ⟨"user", [Vertex.GenaiPart.text "hi"]⟩ []
    { candidates :=
        [⟨⟨"model", [Vertex.GenaiPart.functionCall "get_sources" "{}",
                     Vertex.GenaiPart.functionCall "second" "{}"]⟩⟩],
      usageMetadata := some ⟨10, 1⟩ }
    { candidates := [⟨⟨"model", [Vertex.GenaiPart.text "answer"]⟩⟩],
      usageMetadata := none }
    ⟨⟨"model", [Vertex.GenaiPart.functionCall "get_sources" "{}",
                Vertex.GenaiPart.functionCall "second" "{}"]⟩⟩ []
    "get_sources" "{}" [Vertex.GenaiPart.functionCall "second" "{}"]
    "result-get_sources" "result-get_sources"
    rfl rfl rfl rfl rfl rfl rfl rfl⟩

/-- C8.  In the `PostMessage` tail, `StoreThread` is invoked exactly when the
completion returned a non-nil response with nil error (Terminal Success); a
completion that aborts with an error propagates that error with no thread
persistence. -/
theorem C8_store_only_after_success :
    (∀ (cr : Outcome (Option Chat.CompletionResponseChat))
       (st : List Llm.Message → Except GoErr Unit),
      (Chat.postMessageTail cr st).storeThreadCalled = true ↔
        ∃ r, cr = .ok (some r)) ∧
    (∀ (e : GoErr) (st : List Llm.Message → Except GoErr Unit),
      Chat.postMessageTail (.error e) st =
        { result := .error e, storeThreadCalled := false }) := by
  constructor
  · intro cr st
    constructor
    · intro h
      cases cr with
      | ok v =>
        cases v with
        | none => simp [Chat.postMessageTail] at h
        | some r => exact ⟨r, rfl⟩
      | error e => simp [Chat.postMessageTail] at h
      | panic p => simp [Chat.postMessageTail] at h
    · rintro ⟨r, rfl⟩
      cases hst : st r.messages with
      | error e => simp [Chat.postMessageTail, hst]
      | ok u =>
        cases hl : r.messages.getLast? <;>
          simp [Chat.postMessageTail, hst, hl]
  · intro e st
    rfl

/-- C9 (amended).  On a first provider turn with no tool calls, the
completion makes exactly one provider round trip and its usage equals that
turn's delta; the final content is the turn's first text with leading and
trailing white space REMOVED by the Anthropic adapter (`strings.TrimSpace`),
and the exact text in the Vertex adapter. -/
theorem C9_text_turn_result :
    (∀ (client : Anthropic.Client) (req : Llm.CompletionRequest)
       (msgs : List Anthropic.ClaudeMessage) (resp : Anthropic.ClaudeResponse)
       (c : Anthropic.Content) (cs : List Anthropic.Content),
      client.transformMessages req.messages = .ok msgs →
      (∀ rq, client.invoke 0 req.model rq = .ok resp) →
      (resp.stopReason == Anthropic.ContentTypeToolUse) = false →
      resp.content = c :: cs →
      Anthropic.Completion client req =
        (.ok { message := { role := Llm.RoleAssistant,
                            content := goTrimSpace c.text },
               usage := { userId := req.userId, model := resp.model,
                          inputTokens := resp.usage.inputTokens,
                          outputTokens := resp.usage.outputTokens } },
         { providerCalls := 1, deltas := [resp.usage], toolExecs := [] }))
    ∧
    (∀ (client : Vertex.Client) (req : Llm.CompletionRequest) (m0 : Llm.Message)
       (ms : List Llm.Message) (h0 : Vertex.GenaiContent)
       (hs : List Vertex.GenaiContent) (gen : Vertex.GenResponse)
       (cand : Vertex.Candidate) (crest : List Vertex.Candidate)
       (txt : String) (prest : List Vertex.GenaiPart),
      req.messages = m0 :: ms →
      client.transformToHistory req.messages = .ok (h0 :: hs) →
      client.send 0 (h0 :: hs) = .ok gen →
      gen.candidates = cand :: crest →
      cand.content.parts = Vertex.GenaiPart.text txt :: prest →
      Vertex.Completion client req =
        (.ok (some { message := { role := Llm.RoleAssistant, content := txt },
                     usage := { userId := req.userId,
                                model := goCutPre req.model client.modelPre,
                                inputTokens := Vertex.effIn gen.usageMetadata,
                                outputTokens := Vertex.effOut gen.usageMetadata } }),
         { providerCalls := 1, deltas := [gen.usageMetadata], toolExecs := [] })) := by
  constructor
  · intro client req msgs resp c cs htm hinv hstop hcont
    simp only [Anthropic.Completion, htm]
    rw [hinv]
    simp only [Anthropic.claudeLoop, hstop, Bool.false_eq_true, if_false,
      Anthropic.claudeFinish, hcont]
  · intro client req m0 ms h0 hs gen cand crest txt prest hreq hth hs1 hc1 hp1
    have hlen : (req.messages.length == 0) = false := by simp [hreq]
    simp only [Vertex.Completion, hlen, Bool.false_eq_true, if_false, hth]
    rw [hs1]
    simp only [hc1, hp1, Vertex.vertexFinish]

/-- C9 counterexample: a first-turn text of `" hello "` (with surrounding
spaces) yields the final content `"hello"`, not the exact text — the
Anthropic adapter trims it. -/
theorem C9_counterexample :
    Anthropic.Completion c9Client c9Req =
      (.ok { message := { role := "assistant", content := "hello" },
             usage := { userId := "user-9", model := "claude-3",
                        inputTokens := 7, outputTokens := 2 } },
       { providerCalls := 1,
         deltas := [{ inputTokens := 7, outputTokens := 2 }],
         toolExecs := [] }) ∧
    ("hello" : String) ≠ " hello " := by
  exact ⟨rfl, by decide⟩

/-- C9 witness: the theorem applied to concrete single-text-turn runs of
both adapters. -/
theorem C9_witness :
    Anthropic.Completion c9Client c9Req =
      (.ok { message := { role := Llm.RoleAssistant,
                          content := goTrimSpace " hello " },
             usage := { userId := "user-9", model := "claude-3",
                        inputTokens := 7, outputTokens := 2 } },
       { providerCalls := 1,
         deltas := [{ inputTokens := 7, outputTokens := 2 }],
         toolExecs := [] }) ∧
    Vertex.Completion c9VClient c9VReq =
      (.ok (some { message := { role := Llm.RoleAssistant, content := " hello " },
                   usage := { userId := "user-9",
                              model := goCutPre "gemini-pro" "",
                              inputTokens := 7, outputTokens := 2 } }),
       { providerCalls := 1,
         deltas := [some { promptTokenCount := 7, candidatesTokenCount := 2 }],
         toolExecs := [] }) :=
  ⟨C9_text_turn_result.1 c9Client c9Req []
    { model := "claude-3", stopReason := "end_turn",
      content := [{ type := "text", text := " hello " }],
      usage := { inputTokens := 7, outputTokens := 2 } }
    { type := "text", text := " hello " } []
    rfl (fun _ => rfl) rfl rfl,
   C9_text_turn_result.2 c9VClient c9VReq ⟨"user", "hi"⟩ []
    ⟨"user", [Vertex.GenaiPart.text "hi"]⟩ []
    { candidates := [⟨⟨"model", [Vertex.GenaiPart.text " hello "]⟩⟩],
      usageMetadata := some ⟨7, 2⟩ }
    ⟨⟨"model", [Vertex.GenaiPart.text " hello "]⟩⟩ [] " hello " []
    rfl rfl rfl rfl rfl⟩

/-- C10.  A Vertex completion request with an empty message list fails
immediately with the `no messages` error: zero provider invocations are
made, whatever the client and the remaining request fields. -/
theorem C10_empty_messages_error (client : Vertex.Client) (sp mdl : String)
    (mx : Nat) (tp tmp : Float) (uid : String)
    (tls : List Llm.ToolDefinition) :
    Vertex.Completion client
      { systemPrompt := sp, messages := [], model := mdl, maxTokens := mx,
        topP := tp, temperature := tmp, userId := uid, tools := tls } =
      (.error ("no messages"),
       { providerCalls := 0, deltas := [], toolExecs := [] }) := rfl

namespace GoSort

/-- Moving the element at `m` to the front while writing `a` at `m` is a
permutation of putting `a` in front. -/
theorem cons_set_perm : ∀ (t : List α) (m : Nat) (a : α) (hm : m < t.length),
    List.Perm (t.get ⟨m, hm⟩ :: t.set m a) (a :: t)
  | b :: ts, 0, a, _ => List.Perm.swap a b ts
  | b :: ts, k + 1, a, hm => by
    have hk : k < ts.length := by simpa using hm
    show List.Perm (ts.get ⟨k, hk⟩ :: b :: ts.set k a) (a :: b :: ts)
    exact ((List.Perm.swap b (ts.get ⟨k, hk⟩) (ts.set k a)).trans
      (List.Perm.cons b (cons_set_perm ts k a hk))).trans (List.Perm.swap a b ts)

/-- Exchanging the entries at two positions (via two writes) permutes the
list. -/
theorem set_set_perm : ∀ (l : List α) (i j : Nat) (hi : i < l.length)
    (hj : j < l.length),
    List.Perm ((l.set i (l.get ⟨j, hj⟩)).set j (l.get ⟨i, hi⟩)) l
  | [], i, j, hi, _ => by simp at hi
  | a :: t, 0, 0, _, _ => by simp
  | a :: t, 0, m + 1, _, hj => by
    have hm : m < t.length := by simpa using hj
    simpa using cons_set_perm t m a hm
  | a :: t, m + 1, 0, hi, _ => by
    have hm : m < t.length := by simpa using hi
    simpa using cons_set_perm t m a hm
  | a :: t, m + 1, k + 1, hi, hj => by
    have hm : m < t.length := by simpa using hi
    have hk : k < t.length := by simpa using hj
    simpa using List.Perm.cons a (set_set_perm t m k hm hk)

/-- `swapE` permutes the list's elements. -/
theorem swapE_perm [Inhabited α] (l : List α) (i j : Nat) :
    List.Perm (swapE l i j) l := by
  unfold swapE
  split
  · split
    · rename_i h1 h2
      have e1 : getE l j = l.get ⟨j, h2⟩ := by
        simp [getE, List.getElem?_eq_getElem h2]
      have e2 : getE l i = l.get ⟨i, h1⟩ := by
        simp [getE, List.getElem?_eq_getElem h1]
      rw [e1, e2]
      exact set_set_perm l i j h1 h2
    · exact List.Perm.refl _
  · exact List.Perm.refl _

end GoSort

namespace GoSort

/-- The inner insertion loop permutes the list. -/
theorem insertionInner_perm [Inhabited α] (lt : α → α → Bool) (a : Nat) :
    ∀ (j : Nat) (arr : List α),
      List.Perm (insertionInner lt a j arr) arr
  | 0, arr => List.Perm.refl _
  | j + 1, arr => by
    unfold insertionInner
    split
    · exact (insertionInner_perm lt a j _).trans (swapE_perm arr (j + 1) j)
    · exact List.Perm.refl _

/-- The outer insertion loop permutes the list. -/
theorem insertionOuter_perm [Inhabited α] (lt : α → α → Bool) (a b : Nat) :
    ∀ (fuel : Nat) (arr : List α) (i : Nat),
      List.Perm (insertionOuter lt a b fuel arr i) arr
  | 0, arr, i => List.Perm.refl _
  | fuel + 1, arr, i => by
    unfold insertionOuter
    split
    · exact (insertionOuter_perm lt a b fuel _ _).trans (insertionInner_perm lt a i arr)
    · exact List.Perm.refl _

/-- `insertionSortGo` permutes the list. -/
theorem insertionSortGo_perm [Inhabited α] (lt : α → α → Bool) (arr : List α)
    (a b : Nat) : List.Perm (insertionSortGo lt arr a b) arr :=
  insertionOuter_perm lt a b (b - a) arr (a + 1)

/-- `siftDownGo` permutes the list. -/
theorem siftDownGo_perm [Inhabited α] (lt : α → α → Bool) (hi first : Nat) :
    ∀ (fuel : Nat) (arr : List α) (root : Nat),
      List.Perm (siftDownGo lt hi first fuel arr root) arr
  | 0, arr, root => List.Perm.refl _
  | fuel + 1, arr, root => by
    simp only [siftDownGo]
    split
    · exact List.Perm.refl _
    · split <;> split
      all_goals first
        | exact List.Perm.refl _
        | exact (siftDownGo_perm lt hi first fuel _ _).trans (swapE_perm arr _ _)

/-- The heap-construction loop permutes the list. -/
theorem heapBuild_perm [Inhabited α] (lt : α → α → Bool) (hi first : Nat) :
    ∀ (i : Nat) (arr : List α),
      List.Perm (heapBuild lt hi first i arr) arr
  | 0, arr => List.Perm.refl _
  | i + 1, arr => by
    unfold heapBuild
    exact (heapBuild_perm lt hi first i _).trans (siftDownGo_perm lt hi first hi arr i)

/-- The heap-pop loop permutes the list. -/
theorem heapPop_perm [Inhabited α] (lt : α → α → Bool) (first : Nat) :
    ∀ (i : Nat) (arr : List α),
      List.Perm (heapPop lt first i arr) arr
  | 0, arr => List.Perm.refl _
  | i + 1, arr => by
    unfold heapPop
    exact ((heapPop_perm lt first i _).trans
      (siftDownGo_perm lt i first (i + 1) _ 0)).trans (swapE_perm arr _ _)

/-- `heapSortGo` permutes the list. -/
theorem heapSortGo_perm [Inhabited α] (lt : α → α → Bool) (arr : List α)
    (a b : Nat) : List.Perm (heapSortGo lt arr a b) arr :=
  (heapPop_perm lt a (b - a) _).trans
    (heapBuild_perm lt (b - a) a ((b - a - 1) / 2 + 1) arr)

/-- The reversal loop permutes the list. -/
theorem revLoopGo_perm [Inhabited α] :
    ∀ (fuel : Nat) (arr : List α) (i j : Nat),
      List.Perm (revLoopGo fuel arr i j) arr
  | 0, arr, i, j => List.Perm.refl _
  | fuel + 1, arr, i, j => by
    unfold revLoopGo
    split
    · exact (revLoopGo_perm fuel _ _ _).trans (swapE_perm arr i j)
    · exact List.Perm.refl _

/-- `reverseRangeGo` permutes the list. -/
theorem reverseRangeGo_perm [Inhabited α] (arr : List α) (a b : Nat) :
    List.Perm (reverseRangeGo arr a b) arr :=
  revLoopGo_perm b arr a (b - 1)

/-- The left-shift loop permutes the list. -/
theorem shiftLeftGo_perm [Inhabited α] (lt : α → α → Bool) :
    ∀ (fuel : Nat) (arr : List α) (j : Nat),
      List.Perm (shiftLeftGo lt fuel arr j) arr
  | 0, arr, j => List.Perm.refl _
  | fuel + 1, arr, j => by
    unfold shiftLeftGo
    split
    · split
      · exact List.Perm.refl _
      · exact (shiftLeftGo_perm lt fuel _ _).trans (swapE_perm arr j (j - 1))
    · exact List.Perm.refl _

/-- The right-shift loop permutes the list. -/
theorem shiftRightGo_perm [Inhabited α] (lt : α → α → Bool) (b : Nat) :
    ∀ (fuel : Nat) (arr : List α) (j : Nat),
      List.Perm (shiftRightGo lt b fuel arr j) arr
  | 0, arr, j => List.Perm.refl _
  | fuel + 1, arr, j => by
    unfold shiftRightGo
    split
    · split
      · exact List.Perm.refl _
      · exact (shiftRightGo_perm lt b fuel _ _).trans (swapE_perm arr j (j - 1))
    · exact List.Perm.refl _

/-- The partial-insertion-sort step loop permutes the list. -/
theorem pisLoopGo_perm [Inhabited α] (lt : α → α → Bool) (a b : Nat) :
    ∀ (steps : Nat) (arr : List α) (i : Nat),
      List.Perm (pisLoopGo lt a b steps arr i).1 arr
  | 0, arr, i => List.Perm.refl _
  | steps + 1, arr, i => by
    simp only [pisLoopGo]
    split
    · exact List.Perm.refl _
    · split
      · exact List.Perm.refl _
      · refine (pisLoopGo_perm lt a b steps _ _).trans ?_
        have hA1 := swapE_perm arr (advanceIGo lt arr b b i)
          (advanceIGo lt arr b b i - 1)
        split
        · refine (shiftRightGo_perm lt b b _ _).trans ?_
          split
          · exact (shiftLeftGo_perm lt _ _ _).trans hA1
          · exact hA1
        · split
          · exact (shiftLeftGo_perm lt _ _ _).trans hA1
          · exact hA1

/-- `partInsertionSortGo` permutes the list. -/
theorem partInsertionSortGo_perm [Inhabited α] (lt : α → α → Bool)
    (arr : List α) (a b : Nat) :
    List.Perm (partInsertionSortGo lt arr a b).1 arr :=
  pisLoopGo_perm lt a b 5 arr (a + 1)

/-- `breakPatternsGo` permutes the list. -/
theorem breakPatternsGo_perm [Inhabited α] (arr : List α) (a b : Nat) :
    List.Perm (breakPatternsGo arr a b) arr := by
  simp only [breakPatternsGo]
  split
  · exact ((swapE_perm _ _ _).trans (swapE_perm _ _ _)).trans (swapE_perm arr _ _)
  · exact List.Perm.refl _

/-- The partition exchange loop permutes the list. -/
theorem partLoopGo_perm [Inhabited α] (lt : α → α → Bool) (a b : Nat) :
    ∀ (fuel : Nat) (arr : List α) (i j : Nat),
      List.Perm (partLoopGo lt a b fuel arr i j).1 arr
  | 0, arr, i, j => List.Perm.refl _
  | fuel + 1, arr, i, j => by
    simp only [partLoopGo]
    split
    · exact List.Perm.refl _
    · exact (partLoopGo_perm lt a b fuel _ _ _).trans (swapE_perm arr _ _)

/-- `partitionGo` permutes the list. -/
theorem partitionGo_perm [Inhabited α] (lt : α → α → Bool) (arr : List α)
    (a b pivot : Nat) :
    List.Perm (partitionGo lt arr a b pivot).1 arr := by
  simp only [partitionGo]
  split
  · exact (swapE_perm _ _ _).trans (swapE_perm arr a pivot)
  · rcases hp : partLoopGo lt a b b
      (swapE (swapE arr a pivot)
        (scanUpGo lt (swapE arr a pivot) a (b - 1) b (a + 1))
        (scanDownGo lt (swapE arr a pivot) a
          (scanUpGo lt (swapE arr a pivot) a (b - 1) b (a + 1)) b (b - 1)))
      (scanUpGo lt (swapE arr a pivot) a (b - 1) b (a + 1) + 1)
      (scanDownGo lt (swapE arr a pivot) a
        (scanUpGo lt (swapE arr a pivot) a (b - 1) b (a + 1)) b (b - 1) - 1)
      with ⟨arr3, j3⟩
    have h3 := partLoopGo_perm lt a b b
      (swapE (swapE arr a pivot)
        (scanUpGo lt (swapE arr a pivot) a (b - 1) b (a + 1))
        (scanDownGo lt (swapE arr a pivot) a
          (scanUpGo lt (swapE arr a pivot) a (b - 1) b (a + 1)) b (b - 1)))
      (scanUpGo lt (swapE arr a pivot) a (b - 1) b (a + 1) + 1)
      (scanDownGo lt (swapE arr a pivot) a
        (scanUpGo lt (swapE arr a pivot) a (b - 1) b (a + 1)) b (b - 1) - 1)
    rw [hp] at h3
    exact ((swapE_perm arr3 j3 a).trans h3).trans
      ((swapE_perm _ _ _).trans (swapE_perm arr a pivot))

/-- The equal-partition exchange loop permutes the list. -/
theorem partEqLoopGo_perm [Inhabited α] (lt : α → α → Bool) (a b : Nat) :
    ∀ (fuel : Nat) (arr : List α) (i j : Nat),
      List.Perm (partEqLoopGo lt a b fuel arr i j).1 arr
  | 0, arr, i, j => List.Perm.refl _
  | fuel + 1, arr, i, j => by
    simp only [partEqLoopGo]
    split
    · exact List.Perm.refl _
    · exact (partEqLoopGo_perm lt a b fuel _ _ _).trans (swapE_perm arr _ _)

/-- `partitionEqualGo` permutes the list. -/
theorem partitionEqualGo_perm [Inhabited α] (lt : α → α → Bool) (arr : List α)
    (a b pivot : Nat) :
    List.Perm (partitionEqualGo lt arr a b pivot).1 arr :=
  (partEqLoopGo_perm lt a b b _ (a + 1) (b - 1)).trans (swapE_perm arr a pivot)

/-- The straight-line iteration head permutes the list. -/
theorem pdqsortPrep_perm [Inhabited α] (lt : α → α → Bool) (arr : List α)
    (a b limit : Nat) (wasBalanced wasPartitioned : Bool) :
    List.Perm (pdqsortPrep lt arr a b limit wasBalanced wasPartitioned).1
      arr := by
  simp only [pdqsortPrep]
  split
  · split
    · split
      · exact ((partInsertionSortGo_perm lt _ a b).trans
          (reverseRangeGo_perm _ a b)).trans (breakPatternsGo_perm arr a b)
      · exact (reverseRangeGo_perm _ a b).trans (breakPatternsGo_perm arr a b)
    · split
      · exact (partInsertionSortGo_perm lt _ a b).trans (breakPatternsGo_perm arr a b)
      · exact breakPatternsGo_perm arr a b
  · split
    · split
      · exact (partInsertionSortGo_perm lt _ a b).trans (reverseRangeGo_perm arr a b)
      · exact reverseRangeGo_perm arr a b
    · split
      · exact partInsertionSortGo_perm lt arr a b
      · exact List.Perm.refl _

/-- `pdqsortGo` permutes the list. -/
theorem pdqsortGo_perm [Inhabited α] (lt : α → α → Bool) :
    ∀ (fuel : Nat) (arr : List α) (a b limit : Nat)
      (wasBalanced wasPartitioned : Bool),
      List.Perm (pdqsortGo lt fuel arr a b limit wasBalanced wasPartitioned)
        arr
  | 0, arr, _, _, _, _, _ => List.Perm.refl _
  | fuel + 1, arr, a, b, limit, wasBalanced, wasPartitioned => by
    simp only [pdqsortGo]
    split
    · exact insertionSortGo_perm lt arr a b
    · split
      · exact heapSortGo_perm lt arr a b
      · rcases hp : pdqsortPrep lt arr a b limit wasBalanced wasPartitioned
          with ⟨arr1, limit1, pivot1, sorted1⟩
        have h1 := pdqsortPrep_perm lt arr a b limit wasBalanced wasPartitioned
        rw [hp] at h1
        simp only at h1
        split
        · exact h1
        · split
          · rcases hq : partitionEqualGo lt arr1 a b pivot1 with ⟨arr2, mid2⟩
            have h2 := partitionEqualGo_perm lt arr1 a b pivot1
            rw [hq] at h2
            simp only at h2
            exact ((pdqsortGo_perm lt fuel arr2 mid2 b limit1
              wasBalanced wasPartitioned).trans h2).trans h1
          · rcases hq : partitionGo lt arr1 a b pivot1 with ⟨arr2, mid2, ap2⟩
            have h2 := partitionGo_perm lt arr1 a b pivot1
            rw [hq] at h2
            simp only at h2
            split
            · exact (((pdqsortGo_perm lt fuel _ (mid2 + 1) b limit1 _ _).trans
                (pdqsortGo_perm lt fuel arr2 a mid2 limit1 true true)).trans
                  h2).trans h1
            · exact (((pdqsortGo_perm lt fuel _ a mid2 limit1 _ _).trans
                (pdqsortGo_perm lt fuel arr2 (mid2 + 1) b limit1 true true)).trans
                  h2).trans h1

/-- Go's `sort.Slice` permutes the slice: the output is a rearrangement of
the input elements. -/
theorem goSortSlice_perm [Inhabited α] (lt : α → α → Bool) (arr : List α) :
    List.Perm (goSortSlice lt arr) arr :=
  pdqsortGo_perm lt (arr.length + 1) arr 0 arr.length (bitsLen arr.length) true true

end GoSort

set_option maxRecDepth 8000 in
set_option maxHeartbeats 2000000 in
/-- C3 counterexample: the sort is NOT stable.  In the input, item `x`
precedes item `y` and the two are tied on both documentId and position, yet
the sorted output places `y` before `x` (and scrambles the docA ties as
well): Go's `sort.Slice` runs unstable pdqsort once the set exceeds 12
items. -/
theorem C3_counterexample :
    c3TieInput.take 2 =
      [{ id := "x", documentId := "docB", position := 1 },
       { id := "y", documentId := "docB", position := 1 }] ∧
    (Chat.sortSources c3TieInput).map (fun r => r.id) =
      ["a4", "a0", "a1", "a2", "a3", "a5", "a6", "a7", "a8", "a9", "a10",
       "y", "x"] := by
  exact ⟨rfl, by decide⟩

set_option maxRecDepth 8000 in
set_option maxHeartbeats 2000000 in
/-- C3 (amended).  The tool-result serialization orders retrieval results
with Go's `sort.Slice` under the comparator "documentId ascending, then
position ascending": the output is always a permutation of the input, the
spec's three-item example comes out in the stated order, and the 13-item tie
set comes out ordered under the comparator — but the sort is not stable:
items tied on both keys may lose their original relative order (see the
counterexample). -/
theorem C3_sort_order_not_stable :
    (∀ (sources : List Chat.SearchResult),
      List.Perm (Chat.sortSources sources) sources) ∧
    (Chat.sortSources c3Example) =
      [{ id := "c3", documentId := "docA", position := 1 },
       { id := "c2", documentId := "docA", position := 2 },
       { id := "c1", documentId := "docB", position := 1 }] ∧
    (Chat.sortSources c3TieInput).Pairwise
      (fun x y => Chat.sourcesLess y x = false) := by
  refine ⟨fun sources => GoSort.goSortSlice_perm Chat.sourcesLess sources, ?_, ?_⟩
  · rfl
  · decide
